import Mathlib

/-!
Verification development for the web-crawler backend (Go, package `services`).

The definitions below are a shallow embedding of the crawler source:
`crawl_manager.go` (CrawlManager: queue, dispatcher, transactional save),
`crawler.go` (CrawlerService: fetch safety limits), and `html_parser.go`
(HTMLParser: DOM traversal extraction, DOCTYPE detection, URL resolution).
Strings are modelled as `List Char`; machine integers as `Nat`; wall-clock
times (`time.Now`, durations) as explicit `Nat` parameters; Go `error`
returns as `Option`/`Except` values.
-/

namespace Crawler

/-- Lowercase a Go string (strings.ToLower, modelled on ASCII characters). -/
def toLowerStr (s : List Char) : List Char := s.map Char.toLower

/-- CrawlJob (crawl_manager.go): URLID, URL, QueuedAt. -/
structure CrawlJob where
  urlID : Nat
  url : List Char
  queuedAt : Nat
deriving DecidableEq, Repr

/-- Error returned by CrawlManager.QueueURL: either the manager is not
running, or the buffered channel is full (message carries the queue size). -/
inductive QueueURLError where
  | notRunning
  | queueFull (size : Nat)
deriving DecidableEq, Repr

/-- CrawlManager state (crawl_manager.go): the buffered channel `queue` is
modelled by the list of jobs currently buffered, `queueSize` is its
capacity, `isRunning` the running flag.  `closed` records that Stop closed
the channel. -/
structure CrawlManagerState where
  isRunning : Bool
  queue : List CrawlJob
  queueSize : Nat
  closed : Bool
deriving DecidableEq, Repr

/-- NewCrawlManager: capacity-100 queue, not running. -/
def NewCrawlManager : CrawlManagerState :=
  { isRunning := false, queue := [], queueSize := 100, closed := false }

/-- Start: sets the running flag; a second Start on a running manager is a
no-op. -/
def Start (cm : CrawlManagerState) : CrawlManagerState :=
  if cm.isRunning then cm else { cm with isRunning := true }

/-- Stop: clears the running flag and closes the channel; a Stop on a
stopped manager is a no-op. -/
def Stop (cm : CrawlManagerState) : CrawlManagerState :=
  if !cm.isRunning then cm else { cm with isRunning := false, closed := true }

/-- QueueURL (crawl_manager.go lines 67-88): fails when not running; the
non-blocking select succeeds exactly when the buffered channel has free
capacity (length < capacity), appending the job, and otherwise falls to the
default branch returning the queue-full error.  Returns the new state and
`none` on success, mirroring the Go `error` return. -/
def QueueURL (cm : CrawlManagerState) (urlID : Nat) (url : List Char) (now : Nat) :
    CrawlManagerState × Option QueueURLError :=
  if !cm.isRunning then
    (cm, some .notRunning)
  else
    let job : CrawlJob := { urlID := urlID, url := url, queuedAt := now }
    if cm.queue.length < cm.queueSize then
      ({ cm with queue := cm.queue ++ [job] }, none)
    else
      (cm, some (.queueFull cm.queueSize))

/-- GetQueueStatus (crawl_manager.go lines 90-97). -/
structure QueueStatus where
  is_running : Bool
  queue_length : Nat
  queue_size : Nat
deriving DecidableEq, Repr

/-- GetQueueStatus: reports the running flag, live length and capacity. -/
def GetQueueStatus (cm : CrawlManagerState) : QueueStatus :=
  { is_running := cm.isRunning, queue_length := cm.queue.length,
    queue_size := cm.queueSize }

/-- Runs a sequence of QueueURL calls (urlID, url, time) with no
intervening dequeues, collecting the per-call results in order. -/
def runEnqueues : CrawlManagerState → List (Nat × List Char × Nat) →
    CrawlManagerState × List (Option QueueURLError)
  | cm, [] => (cm, [])
  | cm, (i, u, t) :: rest =>
    let step := QueueURL cm i u t
    let next := runEnqueues step.1 rest
    (next.1, step.2 :: next.2)

/-! ### Fetcher (crawler.go) -/

/-- CrawlerConfig (crawler.go): sizes in bytes, durations in milliseconds. -/
structure CrawlerConfig where
  maxPageSize : Nat
  requestTimeoutMs : Nat
  maxRedirects : Nat
  userAgent : List Char
  rateLimitMs : Nat
deriving DecidableEq, Repr

/-- DefaultCrawlerConfig: 5 MiB page cap, 30 s timeout, 5 redirects, 1 s
rate limit. -/
def DefaultCrawlerConfig : CrawlerConfig :=
  { maxPageSize := 5 * 1024 * 1024
    requestTimeoutMs := 30000
    maxRedirects := 5
    userAgent := "WebCrawler/1.0 (+https://github.com/your-repo/web-crawler)".toList
    rateLimitMs := 1000 }

/-- CrawlError (crawler.go): classified error with type tag, message and
URL (the wrapped Go error value is not modelled). -/
structure CrawlError where
  errType : List Char
  message : List Char
  url : List Char
deriving DecidableEq, Repr

/-- Renders a Nat the way fmt's %d does, for error messages. -/
def natToChars (n : Nat) : List Char := (Nat.repr n).toList

/-- The readResponseBody function (crawler.go lines 213-230): the response body
is read through io.LimitReader capped at MaxPageSize+1 bytes (modelled by
take), and if more than MaxPageSize bytes came through, the read is
discarded and a too_large CrawlError returned.  The response body stream is
modelled as the byte list it would deliver; a transport error during
reading (the read_error case) is outside this model. -/
def readResponseBody (c : CrawlerConfig) (respBody : List Nat) (url : List Char) :
    Except CrawlError (List Nat) :=
  let body := respBody.take (c.maxPageSize + 1)
  if body.length > c.maxPageSize then
    .error { errType := "too_large".toList
             message := "Response size exceeds limit of ".toList ++
               natToChars c.maxPageSize ++ " bytes".toList
             url := url }
  else
    .ok body

/-! ### Text normalization (crawl_manager.go lines 385-426) -/

/-- Whitespace recognized by the model of TrimSpace (ASCII subset of
unicode.IsSpace). -/
def isGoSpace (c : Char) : Bool :=
  c = ' ' || c = '\t' || c = '\n' || c = '\r' || c = '\x0b' || c = '\x0c'

/-- The strings.TrimSpace function: strip leading and trailing whitespace. -/
def trimSpace (s : List Char) : List Char :=
  ((s.dropWhile isGoSpace).reverse.dropWhile isGoSpace).reverse

/-- The strings.ReplaceAll function for a single-character pattern and
single-character replacement. -/
def replaceChar (a b : Char) (s : List Char) : List Char :=
  s.map fun c => if c = a then b else c

/-- Fixpoint of the loop `for Contains(s, two-spaces) { s = ReplaceAll(s,
two-spaces, one-space) }`: every run of two or more spaces collapses to a
single space. -/
def collapseSpaces : List Char → List Char
  | [] => []
  | [c] => [c]
  | c1 :: c2 :: rest =>
    if c1 = ' ' && c2 = ' ' then collapseSpaces (c2 :: rest)
    else c1 :: collapseSpaces (c2 :: rest)

/-- The normalizeURL method (crawl_manager.go): trim whitespace, truncate to
2000 (bytes in Go, characters here). -/
def normalizeURL (rawURL : List Char) : List Char :=
  (trimSpace rawURL).take 2000

/-- The normalizeText method (crawl_manager.go): trim, replace newlines,
carriage returns and tabs by spaces, collapse runs of spaces, truncate to
500, and return nil for empty text. -/
def normalizeText (text : List Char) : Option (List Char) :=
  let c0 := trimSpace text
  let c1 := replaceChar '\n' ' ' c0
  let c2 := replaceChar '\r' ' ' c1
  let c3 := replaceChar '\t' ' ' c2
  let c4 := (collapseSpaces c3).take 500
  if c4 = [] then none else some c4

/-! ### Parsed data (html_parser.go) -/

/-- LinkInfo (html_parser.go): a discovered link. -/
structure LinkInfo where
  url : List Char
  text : List Char
  isImage : Bool
  isInternal : Bool
deriving DecidableEq, Repr

/-- Lookup in a Go map modelled as an association list (first binding
wins; Go maps have at most one binding per key). -/
def mapLookup (m : List (List Char × Nat)) (k : List Char) : Option Nat :=
  match m with
  | [] => none
  | (k2, v) :: rest => if k2 = k then some v else mapLookup rest k

/-- Read of a Go map with the zero value for missing keys (m[k]). -/
def mapLookupD (m : List (List Char × Nat)) (k : List Char) : Nat :=
  (mapLookup m k).getD 0

/-- Key-presence test of a Go map (the ok of v, ok := m[k]). -/
def mapContainsKey (m : List (List Char × Nat)) (k : List Char) : Bool :=
  (mapLookup m k).isSome

/-- Go map increment m[k]++: bump the binding, adding the key with value 1
when absent. -/
def mapIncr (m : List (List Char × Nat)) (k : List Char) :
    List (List Char × Nat) :=
  match m with
  | [] => [(k, 1)]
  | (k2, v) :: rest =>
    if k2 = k then (k2, v + 1) :: rest else (k2, v) :: mapIncr rest k

/-- ParsedData (html_parser.go): extraction output.  HeadingCounts is a Go
map modelled as an association list. -/
structure ParsedData where
  htmlVersion : Option (List Char)
  pageTitle : Option (List Char)
  headingCounts : List (List Char × Nat)
  internalLinks : List LinkInfo
  externalLinks : List LinkInfo
  hasLoginForm : Bool
  parseErrors : List (List Char)
deriving DecidableEq, Repr

/-! ### Persistence model (models and crawl_manager.go save functions) -/

/-- URLStatus (models/url.go). -/
inductive URLStatus where
  | queued
  | running
  | completed
  | error
deriving DecidableEq, Repr

/-- URL row (models/url.go): target identifier, status, error message.
Timestamps are Nat; CreatedAt is irrelevant to the claims and omitted. -/
structure URLRow where
  id : Nat
  url : List Char
  status : URLStatus
  errorMessage : Option (List Char)
  updatedAt : Nat
deriving DecidableEq, Repr

/-- CrawlResult row (models.CrawlResult, fields as populated by
saveCrawlResults). -/
structure CrawlResultRow where
  urlID : Nat
  htmlVersion : Option (List Char)
  pageTitle : Option (List Char)
  hasLoginForm : Bool
  crawledAt : Nat
  crawlDurationMs : Option Nat
  h1Count : Nat
  h2Count : Nat
  h3Count : Nat
  h4Count : Nat
  h5Count : Nat
  h6Count : Nat
  internalLinksCount : Nat
  externalLinksCount : Nat
  inaccessibleLinksCount : Nat
deriving DecidableEq, Repr

/-- FoundLink row (models/found_link.go). -/
structure FoundLinkRow where
  urlID : Nat
  linkURL : List Char
  linkText : Option (List Char)
  isInternal : Bool
  isAccessible : Option Bool
  statusCode : Option Nat
  errorMessage : Option (List Char)
  createdAt : Nat
deriving DecidableEq, Repr

/-- Database state: the three tables touched by the dispatcher. -/
structure DBState where
  urls : List URLRow
  crawlResults : List CrawlResultRow
  foundLinks : List FoundLinkRow
deriving DecidableEq, Repr

/-- The updateURLStatusTx method: UPDATE urls SET status, error_message,
updated_at WHERE id = urlID (error_message explicitly set to NULL when the
message pointer is nil). -/
def updateURLStatusTx (db : DBState) (urlID : Nat) (status : URLStatus)
    (errorMsg : Option (List Char)) (now : Nat) : DBState :=
  { db with urls := db.urls.map fun r =>
      if r.id = urlID then
        { r with status := status, errorMessage := errorMsg, updatedAt := now }
      else r }

/-- Observes the status and error message of a Target row. -/
def getStatus (db : DBState) (urlID : Nat) :
    Option (URLStatus × Option (List Char)) :=
  (db.urls.find? fun r => r.id == urlID).map fun r => (r.status, r.errorMessage)

/-- The CrawlResult row built by saveCrawlResults: heading counts copied
from the map when the key exists (zero otherwise), link counts are list
lengths, inaccessible count fixed to 0, duration in milliseconds. -/
def mkCrawlResult (urlID : Nat) (data : ParsedData) (durationMs : Nat)
    (now : Nat) : CrawlResultRow :=
  { urlID := urlID
    htmlVersion := data.htmlVersion
    pageTitle := data.pageTitle
    hasLoginForm := data.hasLoginForm
    crawledAt := now
    crawlDurationMs := some durationMs
    h1Count := mapLookupD data.headingCounts "h1".toList
    h2Count := mapLookupD data.headingCounts "h2".toList
    h3Count := mapLookupD data.headingCounts "h3".toList
    h4Count := mapLookupD data.headingCounts "h4".toList
    h5Count := mapLookupD data.headingCounts "h5".toList
    h6Count := mapLookupD data.headingCounts "h6".toList
    internalLinksCount := data.internalLinks.length
    externalLinksCount := data.externalLinks.length
    inaccessibleLinksCount := 0 }

/-- Table effect of a successful saveCrawlResults: delete every existing
crawl result of the target, then insert the new row. -/
def applySaveCrawlResults (db : DBState) (urlID : Nat) (data : ParsedData)
    (durationMs : Nat) (now : Nat) : DBState :=
  { db with crawlResults :=
      (db.crawlResults.filter fun r => r.urlID ≠ urlID) ++
        [mkCrawlResult urlID data durationMs now] }

/-- One FoundLink row as built in the saveFoundLinks loops: URL and text
normalized, accessibility fields unset. -/
def mkFoundLinkRow (urlID : Nat) (isInt : Bool) (l : LinkInfo) (now : Nat) :
    FoundLinkRow :=
  { urlID := urlID
    linkURL := normalizeURL l.url
    linkText := normalizeText l.text
    isInternal := isInt
    isAccessible := none
    statusCode := none
    errorMessage := none
    createdAt := now }

/-- The link rows saveFoundLinks inserts: internal links first, then
external links, truncated to the first maxLinksToSave = 200 entries of
that concatenation. -/
def foundLinkRows (urlID : Nat) (data : ParsedData) (now : Nat) :
    List FoundLinkRow :=
  ((data.internalLinks.map fun l => mkFoundLinkRow urlID true l now) ++
    (data.externalLinks.map fun l => mkFoundLinkRow urlID false l now)).take 200

/-- Structural worker for the batch loop; the fuel argument is an upper
bound on the number of rows, so it never runs out. -/
def linkBatchesGo : Nat → List FoundLinkRow → List (List FoundLinkRow)
  | _, [] => []
  | 0, _ :: _ => []
  | Nat.succ n, r :: rest =>
    (r :: rest).take 50 :: linkBatchesGo n ((r :: rest).drop 50)

/-- The batches produced by the batchSize = 50 insert loop
(for i := 0; i < len; i += 50). -/
def linkBatches (rows : List FoundLinkRow) : List (List FoundLinkRow) :=
  linkBatchesGo rows.length rows

/-- Table effect of a successful saveFoundLinks: delete every existing
found link of the target, then insert the batches in order. -/
def applySaveFoundLinks (db : DBState) (urlID : Nat) (data : ParsedData)
    (now : Nat) : DBState :=
  { db with foundLinks :=
      (db.foundLinks.filter fun r => r.urlID ≠ urlID) ++
        (linkBatches (foundLinkRows urlID data now)).flatten }

/-! ### Dispatcher pipeline (crawl_manager.go lines 129-248)

Database failures are modelled by an oracle that says which fallible
operation fails and with what message; a step whose failure aborts a
transaction discards every table change of that transaction (rollback). -/

/-- A committed status write, in the order the database observes them. -/
structure StatusWrite where
  status : URLStatus
  errorMessage : Option (List Char)
deriving DecidableEq, Repr

/-- Failure oracle for the transactional part of handleCrawlSuccess.
The first four fields give the error of saveCrawlResults, saveFoundLinks,
the in-transaction completed-status update, and Commit, when those fail;
errorWriteFails makes the ignored-result updateURLStatus calls of the
failure branches fail. -/
structure TxOracle where
  saveResultsErr : Option (List Char)
  saveLinksErr : Option (List Char)
  statusUpdateErr : Option (List Char)
  commitErr : Option (List Char)
  errorWriteFails : Bool
deriving DecidableEq, Repr

/-- An updateURLStatus call whose result the caller ignores: when it
fails, no row changes and nothing is recorded. -/
def applyStatusWrite (db : DBState) (urlID : Nat) (status : URLStatus)
    (msg : Option (List Char)) (now : Nat) (fails : Bool) :
    DBState × List StatusWrite :=
  if fails then (db, [])
  else (updateURLStatusTx db urlID status msg now, [{ status := status, errorMessage := msg }])

/-- The handleCrawlSuccess method (crawl_manager.go lines 172-218): open a
transaction; run saveCrawlResults, saveFoundLinks and the completed-status
update inside it; a failure of either save rolls back and writes the error
status outside the transaction; a failure of the status update rolls back
and returns without any status write; a Commit failure leaves the
transaction unapplied and writes the error status; otherwise the
transaction commits.  Returns the resulting database state and the
committed status writes. -/
def handleCrawlSuccess (db : DBState) (job : CrawlJob) (data : ParsedData)
    (durationMs : Nat) (now : Nat) (o : TxOracle) : DBState × List StatusWrite :=
  match o.saveResultsErr with
  | some e => applyStatusWrite db job.urlID .error (some e) now o.errorWriteFails
  | none =>
    let tx1 := applySaveCrawlResults db job.urlID data durationMs now
    match o.saveLinksErr with
    | some e => applyStatusWrite db job.urlID .error (some e) now o.errorWriteFails
    | none =>
      let tx2 := applySaveFoundLinks tx1 job.urlID data now
      match o.statusUpdateErr with
      | some _ => (db, [])
      | none =>
        let tx3 := updateURLStatusTx tx2 job.urlID .completed none now
        match o.commitErr with
        | some e => applyStatusWrite db job.urlID .error (some e) now o.errorWriteFails
        | none => (tx3, [{ status := .completed, errorMessage := none }])

/-- The handleCrawlFailure method (crawl_manager.go lines 220-228): set the
error status with the failure message; a failure of that update is only
logged. -/
def handleCrawlFailure (db : DBState) (job : CrawlJob) (errMsg : List Char)
    (now : Nat) (writeFails : Bool) : DBState × List StatusWrite :=
  applyStatusWrite db job.urlID .error (some errMsg) now writeFails

/-- Failure oracle for one job: whether the initial running-status update
fails, the outcome of performCrawl (fetch + parse), the transactional
oracle, and whether handleCrawlFailure's status write fails. -/
structure JobOracle where
  runningUpdateErr : Bool
  crawlOutcome : Except (List Char) ParsedData
  tx : TxOracle
  failureWriteFails : Bool
deriving Repr

/-- The processSingleJob method (crawl_manager.go lines 129-152): set the
running status (aborting the job if that update fails), perform the crawl,
and dispatch to failure or success handling. -/
def processSingleJob (db : DBState) (job : CrawlJob) (o : JobOracle)
    (durationMs : Nat) (now : Nat) : DBState × List StatusWrite :=
  if o.runningUpdateErr then (db, [])
  else
    let db1 := updateURLStatusTx db job.urlID .running none now
    match o.crawlOutcome with
    | .error e =>
      let r := handleCrawlFailure db1 job e now o.failureWriteFails
      (r.1, { status := .running, errorMessage := none } :: r.2)
    | .ok data =>
      let r := handleCrawlSuccess db1 job data durationMs now o.tx
      (r.1, { status := .running, errorMessage := none } :: r.2)

/-! ### DOCTYPE version detection (html_parser.go lines 565-619) -/

/-- Tests whether the pattern list is a prefix of the string. -/
def startsWithChars : List Char → List Char → Bool
  | _, [] => true
  | [], _ :: _ => false
  | c :: s, p :: ps => c == p && startsWithChars s ps

/-- Tests whether some suffix of the string satisfies the predicate
(an unanchored scan, as regexp matching and strings.Contains do). -/
def anySuffixSat (p : List Char → Bool) : List Char → Bool
  | [] => p []
  | c :: t => p (c :: t) || anySuffixSat p t

/-- The strings.Contains function. -/
def goContains (s pat : List Char) : Bool :=
  anySuffixSat (fun t => startsWithChars t pat) s

/-- Whitespace class of RE2 regexps (backslash-s). -/
def isRegexSpace (c : Char) : Bool :=
  c = '\t' || c = '\n' || c = '\x0c' || c = '\r' || c = ' '

/-- Anchored match of the doctype regexp used by extractHTMLVersion
(open doctype tag, one or more spaces, html, any non-close characters,
close): after the mandatory space run and the html token there must be
some later close bracket. -/
def matchDoctypeOuterAt (l : List Char) : Bool :=
  startsWithChars l "<!doctype".toList &&
  !((l.drop 9).takeWhile isRegexSpace).isEmpty &&
  startsWithChars ((l.drop 9).dropWhile isRegexSpace) "html".toList &&
  (((l.drop 9).dropWhile isRegexSpace).drop 4).any (· == '>')

/-- Anchored match of the strict HTML5 doctype regexp (open doctype tag,
one or more spaces, html, optional spaces, close). -/
def matchDoctypeHtml5At (l : List Char) : Bool :=
  startsWithChars l "<!doctype".toList &&
  !((l.drop 9).takeWhile isRegexSpace).isEmpty &&
  startsWithChars ((l.drop 9).dropWhile isRegexSpace) "html".toList &&
  startsWithChars ((((l.drop 9).dropWhile isRegexSpace).drop 4).dropWhile
    isRegexSpace) ">".toList

/-- The HTML5 branch condition of extractHTMLVersion: the general doctype
regexp matches somewhere, and the text contains the exact lowered doctype
literal or matches the strict HTML5 doctype regexp. -/
def doctypeHtml5Cond (htmlLower : List Char) : Bool :=
  anySuffixSat matchDoctypeOuterAt htmlLower &&
    (goContains htmlLower "<!doctype html>".toList ||
      anySuffixSat matchDoctypeHtml5At htmlLower)

/-- The HTML4.01 / XHTML substring checks extractHTMLVersion falls through
to when the HTML5 branch does not return. -/
def versionAfterDoctype (htmlLower : List Char) : Option (List Char) :=
  if goContains htmlLower "html 4.01".toList then
    if goContains htmlLower "strict".toList then some "HTML4.01 Strict".toList
    else if goContains htmlLower "transitional".toList then
      some "HTML4.01 Transitional".toList
    else if goContains htmlLower "frameset".toList then
      some "HTML4.01 Frameset".toList
    else some "HTML4.01".toList
  else if goContains htmlLower "xhtml 1.0".toList then
    if goContains htmlLower "strict".toList then some "XHTML1.0 Strict".toList
    else if goContains htmlLower "transitional".toList then
      some "XHTML1.0 Transitional".toList
    else if goContains htmlLower "frameset".toList then
      some "XHTML1.0 Frameset".toList
    else some "XHTML1.0".toList
  else if goContains htmlLower "xhtml 1.1".toList then some "XHTML1.1".toList
  else none

/-- The extractHTMLVersion method: lowercase the whole document, return
HTML5 on the doctype regexp condition, otherwise fall through to the
substring checks. -/
def extractHTMLVersion (htmlContent : List Char) : Option (List Char) :=
  if doctypeHtml5Cond (toLowerStr htmlContent) then some "HTML5".toList
  else versionAfterDoctype (toLowerStr htmlContent)

/-! ### URL model

The crawler resolves and classifies links through the standard net/url
package, which is external to this repository; the definitions in this
section are modelled from its documented behavior for the URL shapes the
crawler handles (absolute http/https URLs, protocol-relative and relative
references).  Userinfo, opaque URLs, percent-escape validation and the
ForceQuery distinction are outside the model; query and fragment hold the
text behind their marker, the empty list meaning absent. -/

/-- URL record: the fields of net/url's URL the crawler uses. -/
structure GoURL where
  scheme : List Char
  host : List Char
  path : List Char
  query : List Char
  fragment : List Char
deriving DecidableEq, Repr

/-- Control characters, which net/url refuses. -/
def isCtlChar (c : Char) : Bool := c.toNat < 32 || c.toNat == 127

/-- Tests for a control character anywhere in the string. -/
def hasCtl (s : List Char) : Bool := s.any isCtlChar

/-- Splits at the first occurrence of the separator: the part before it
and, when the separator occurs, the part after it. -/
def splitFirst (c : Char) : List Char → List Char × Option (List Char)
  | [] => ([], none)
  | a :: rest =>
    if a = c then ([], some rest)
    else
      let r := splitFirst c rest
      (a :: r.1, r.2)

/-- Modelled from the spec of net/url's getScheme: a scheme is a leading
letter followed by letters, digits, plus, minus or dot, ended by a colon;
a colon as the very first character is an error; any other shape means
the URL has no scheme and the whole input is kept. -/
def getSchemeGo (orig : List Char) : List Char → List Char →
    Except Unit (List Char × List Char)
  | _, [] => .ok ([], orig)
  | acc, c :: rest =>
    if c.isAlpha then getSchemeGo orig (acc ++ [c]) rest
    else if c.isDigit || c = '+' || c = '-' || c = '.' then
      if acc.isEmpty then .ok ([], orig) else getSchemeGo orig (acc ++ [c]) rest
    else if c = ':' then
      if acc.isEmpty then .error () else .ok (acc, rest)
    else .ok ([], orig)

/-- Reads the scheme off the front of a URL string. -/
def getScheme (raw : List Char) : Except Unit (List Char × List Char) :=
  getSchemeGo raw [] raw

/-- Takes the authority (up to the first slash) and the rest of the URL
(keeping that slash). -/
def spanAuthority : List Char → List Char × List Char
  | [] => ([], [])
  | c :: rest =>
    if c = '/' then ([], c :: rest)
    else
      let r := spanAuthority rest
      (c :: r.1, r.2)

/-- Modelled from the spec of net/url's Parse: refuse control characters,
split off the fragment at the first hash, read the scheme (lowercasing
it), split off the query at the first question mark, and read the host
between a double slash and the next slash; userinfo and opaque forms are
outside the model. -/
def parseURL (raw : List Char) : Option GoURL :=
  if hasCtl raw then none
  else
    let fragSplit := splitFirst '#' raw
    match getScheme fragSplit.1 with
    | .error _ => none
    | .ok (scheme, rest) =>
      let querySplit := splitFirst '?' rest
      let rest2 := querySplit.1
      if startsWithChars rest2 "//".toList then
        let auth := spanAuthority (rest2.drop 2)
        if auth.1.any (· == '@') then none
        else
          some { scheme := toLowerStr scheme, host := auth.1, path := auth.2,
                 query := querySplit.2.getD [], fragment := fragSplit.2.getD [] }
      else
        if !scheme.isEmpty && !rest2.isEmpty &&
            !startsWithChars rest2 "/".toList then
          none
        else
          some { scheme := toLowerStr scheme, host := [], path := rest2,
                 query := querySplit.2.getD [], fragment := fragSplit.2.getD [] }

/-- The prefix of a path up to and including its last slash (empty when
there is no slash), as the path merge takes it. -/
def upToLastSlash (base : List Char) : List Char :=
  (base.reverse.dropWhile fun c => c ≠ '/').reverse

/-- Splits a path into its slash-separated segments. -/
def splitSlashes : List Char → List (List Char)
  | [] => [[]]
  | c :: rest =>
    if c = '/' then [] :: splitSlashes rest
    else
      match splitSlashes rest with
      | [] => [[c]]
      | s :: ss => (c :: s) :: ss

/-- Joins segments with slashes. -/
def joinSlashes : List (List Char) → List Char
  | [] => []
  | [s] => s
  | s :: s2 :: ss => s ++ '/' :: joinSlashes (s2 :: ss)

/-- Dot-segment removal: single dots are dropped, double dots pop the
last kept segment. -/
def remDotsGo (acc : List (List Char)) : List (List Char) → List (List Char)
  | [] => acc
  | s :: rest =>
    if s = ['.'] then remDotsGo acc rest
    else if s = ['.', '.'] then remDotsGo acc.dropLast rest
    else remDotsGo (acc ++ [s]) rest

/-- The merged path of RFC 3986 section 5.3: the reference path itself
when rooted or the base empty-relative case, otherwise the reference
appended behind the base's last slash. -/
def mergedFull (base ref : List Char) : List Char :=
  if ref.isEmpty then base
  else if !startsWithChars ref "/".toList then upToLastSlash base ++ ref
  else ref

/-- The slash-separated segments of a merged path, its leading slash
stripped. -/
def cleanSegs (full : List Char) : List (List Char) :=
  splitSlashes (if startsWithChars full "/".toList then full.drop 1 else full)

/-- Modelled from the spec of net/url's resolvePath: merge the reference
path into the base path (RFC 3986 section 5.3), remove dot segments, and
return a rooted path (empty only when both inputs are empty); a trailing
single or double dot keeps a trailing slash. -/
def resolvePath (base ref : List Char) : List Char :=
  if (mergedFull base ref).isEmpty then []
  else
    '/' :: joinSlashes
      (if (cleanSegs (mergedFull base ref)).getLast? = some ['.'] ||
          (cleanSegs (mergedFull base ref)).getLast? = some ['.', '.'] then
        remDotsGo [] (cleanSegs (mergedFull base ref)) ++ [[]]
      else remDotsGo [] (cleanSegs (mergedFull base ref)))

/-- Modelled from the spec of net/url's ResolveReference (RFC 3986
section 5.3, without userinfo and opaque forms): a reference with a
scheme or host replaces the authority (inheriting the base scheme when it
has none); otherwise the base authority is kept, an empty path with empty
query inherits the base query (and an empty fragment then inherits the
base fragment), and the paths are merged. -/
def resolveReference (u ref : GoURL) : GoURL :=
  if !ref.scheme.isEmpty || !ref.host.isEmpty then
    { scheme := if ref.scheme.isEmpty then u.scheme else ref.scheme,
      host := ref.host, path := resolvePath ref.path [],
      query := ref.query, fragment := ref.fragment }
  else if ref.path.isEmpty && ref.query.isEmpty then
    { scheme := u.scheme, host := u.host, path := resolvePath u.path ref.path,
      query := u.query,
      fragment := if ref.fragment.isEmpty then u.fragment else ref.fragment }
  else
    { scheme := u.scheme, host := u.host, path := resolvePath u.path ref.path,
      query := ref.query, fragment := ref.fragment }

/-- Modelled from the spec of net/url's String for the modelled subset:
scheme and colon, a double slash before the host when an authority or a
rooted path with scheme is present, a slash inserted between a host and a
relative path, then path, query and fragment behind their markers. -/
def urlToString (u : GoURL) : List Char :=
  (if !u.scheme.isEmpty then u.scheme ++ [':'] else []) ++
  (if (!u.scheme.isEmpty || !u.host.isEmpty) &&
      (!u.host.isEmpty || !u.path.isEmpty) then
    '/' :: '/' :: u.host
  else []) ++
  (if !u.path.isEmpty && !startsWithChars u.path "/".toList &&
      !u.host.isEmpty then ['/'] else []) ++
  u.path ++
  (if !u.query.isEmpty then '?' :: u.query else []) ++
  (if !u.fragment.isEmpty then '#' :: u.fragment else [])

/-- The resolveURL method (html_parser.go lines 511-527): parse the base
and the href, resolve the reference, render the result; empty string when
either parse fails. -/
def resolveURL (href baseURL : List Char) : List Char :=
  match parseURL baseURL with
  | none => []
  | some base =>
    match parseURL href with
    | none => []
    | some ref => urlToString (resolveReference base ref)

/-- The isInternalLink method (html_parser.go lines 529-538): parse the
link URL and compare its lowercased host with the base domain; parse
failure classifies as external. -/
def isInternalLink (linkURL baseDomain : List Char) : Bool :=
  match parseURL linkURL with
  | none => false
  | some u => toLowerStr u.host == baseDomain

/-- Characters allowed in a modelled host: no control characters and none
of the four delimiters the parser cuts at. -/
def cleanHostChar (c : Char) : Bool :=
  !isCtlChar c && c ≠ '/' && c ≠ '?' && c ≠ '#' && c ≠ '@'

/-- Well-formed host. -/
def cleanHost (h : List Char) : Bool := h.all cleanHostChar

/-- Characters allowed in a modelled path. -/
def cleanPathChar (c : Char) : Bool := !isCtlChar c && c ≠ '?' && c ≠ '#'

/-- Well-formed path text. -/
def cleanPath (p : List Char) : Bool := p.all cleanPathChar

/-- Characters allowed in a modelled query. -/
def cleanQueryChar (c : Char) : Bool := !isCtlChar c && c ≠ '#'

/-- Well-formed query text. -/
def cleanQuery (q : List Char) : Bool := q.all cleanQueryChar

/-- Well-formed fragment text. -/
def cleanFrag (f : List Char) : Bool := f.all fun c => !isCtlChar c

/-- A path that is empty or starts with a slash. -/
def rootedPath (p : List Char) : Bool :=
  p.isEmpty || startsWithChars p "/".toList

/-! ### HTML DOM and extraction (html_parser.go, DOM traversal)

The repository parses HTML with the external golang.org/x/net/html
package; the tree that package returns is modelled by HTMLNode, and the
repository's own traversal and extraction code is embedded over it. -/

/-- Node types of the x/net/html package. -/
inductive HTMLNodeType where
  | document
  | element
  | text
  | comment
  | doctype
deriving DecidableEq, Repr

/-- A DOM node: type, data (tag name for elements, text for text nodes),
attributes, children. -/
inductive HTMLNode where
  | mk (ntype : HTMLNodeType) (dat : List Char)
      (attrs : List (List Char × List Char)) (children : List HTMLNode)

/-- Node type accessor. -/
def nodeType : HTMLNode → HTMLNodeType
  | .mk t _ _ _ => t

/-- Node data accessor. -/
def nodeData : HTMLNode → List Char
  | .mk _ d _ _ => d

/-- Node attribute accessor. -/
def nodeAttrs : HTMLNode → List (List Char × List Char)
  | .mk _ _ a _ => a

/-- Node children accessor. -/
def nodeChildren : HTMLNode → List HTMLNode
  | .mk _ _ _ cs => cs

mutual

/-- Concatenated data of the text nodes of a subtree, in document order
(the recursion inside extractTextContent). -/
def extractTextAll : HTMLNode → List Char
  | .mk t d _ cs =>
    (if t = .text then d else []) ++ extractTextListAll cs

/-- Text collection over a child list. -/
def extractTextListAll : List HTMLNode → List Char
  | [] => []
  | c :: cs => extractTextAll c ++ extractTextListAll cs

end

/-- The extractTextContent method: the subtree's text, trimmed. -/
def extractTextContent (n : HTMLNode) : List Char :=
  trimSpace (extractTextAll n)

mutual

/-- The hasPasswordInput method: does the subtree contain an input
element whose type attribute equals password (case-insensitive)? -/
def hasPasswordInput : HTMLNode → Bool
  | .mk t d attrs cs =>
    (t = .element && toLowerStr d = "input".toList &&
      attrs.any fun a =>
        toLowerStr a.1 = "type".toList && toLowerStr a.2 = "password".toList) ||
    hasPasswordInputList cs

/-- Password-input search over a child list. -/
def hasPasswordInputList : List HTMLNode → Bool
  | [] => false
  | c :: cs => hasPasswordInput c || hasPasswordInputList cs

end

/-- The href-attribute lookup of extractLinkInfo: the first attribute
whose lowercased key is href, its value trimmed. -/
def findHrefAttr : List (List Char × List Char) → Option (List Char)
  | [] => none
  | (k, v) :: rest =>
    if toLowerStr k = "href".toList then some (trimSpace v)
    else findHrefAttr rest

/-- The extractLinkInfo method: skip missing, empty, bare-hash,
javascript: and mailto: hrefs; take the subtree text (falling back to the
href); resolve against the base URL (skipping on failure) and classify
against the base domain. -/
def extractLinkInfo (n : HTMLNode) (baseDomain baseURL : List Char) :
    Option LinkInfo :=
  match findHrefAttr (nodeAttrs n) with
  | none => none
  | some href =>
    if href = [] ∨ href = "#".toList ∨
        startsWithChars href "javascript:".toList = true ∨
        startsWithChars href "mailto:".toList = true then
      none
    else
      if resolveURL href baseURL = [] then none
      else
        some { url := resolveURL href baseURL
               text := if extractTextContent n = [] then href
                       else extractTextContent n
               isImage := false
               isInternal := isInternalLink (resolveURL href baseURL)
                 baseDomain }

/-- The element dispatch of traverseNode: title overwrites the page
title when the subtree text is nonempty; h1-h6 bump the heading map at
the lowercased tag; anchors append the extracted link to the internal or
external list; forms with a password input set the login-form flag. -/
def processNode (n : HTMLNode) (data : ParsedData)
    (baseDomain baseURL : List Char) : ParsedData :=
  if nodeType n = .element then
    if toLowerStr (nodeData n) = "title".toList then
      if extractTextContent n = [] then data
      else { data with pageTitle := some (extractTextContent n) }
    else if toLowerStr (nodeData n) = "h1".toList ∨
        toLowerStr (nodeData n) = "h2".toList ∨
        toLowerStr (nodeData n) = "h3".toList ∨
        toLowerStr (nodeData n) = "h4".toList ∨
        toLowerStr (nodeData n) = "h5".toList ∨
        toLowerStr (nodeData n) = "h6".toList then
      { data with
        headingCounts := mapIncr data.headingCounts (toLowerStr (nodeData n)) }
    else if toLowerStr (nodeData n) = "a".toList then
      match extractLinkInfo n baseDomain baseURL with
      | none => data
      | some li =>
        if li.isInternal then
          { data with internalLinks := data.internalLinks ++ [li] }
        else
          { data with externalLinks := data.externalLinks ++ [li] }
    else if toLowerStr (nodeData n) = "form".toList then
      if hasPasswordInput n then { data with hasLoginForm := true } else data
    else data
  else data

mutual

/-- The traverseNode method: process the node, then recurse over its
children in order. -/
def traverseNode : HTMLNode → ParsedData → List Char → List Char →
    ParsedData
  | .mk t d a cs, data, bd, bu =>
    traverseList cs (processNode (.mk t d a cs) data bd bu) bd bu

/-- Traversal of a child list (the FirstChild/NextSibling loop). -/
def traverseList : List HTMLNode → ParsedData → List Char → List Char →
    ParsedData
  | [], data, _, _ => data
  | c :: cs, data, bd, bu => traverseList cs (traverseNode c data bd bu) bd bu

end

/-- The Parse method (html_parser.go lines 379-416): fail when the base
URL does not parse; otherwise extract the HTML version from the raw text,
and traverse the DOM tree (the html.Parse call of the external x/net/html
package is modelled by the given tree) with the lowercased base host as
the base domain. -/
def Parse (htmlContent : List Char) (doc : HTMLNode) (baseURL : List Char) :
    Option ParsedData :=
  match parseURL baseURL with
  | none => none
  | some b =>
    some (traverseNode doc
      { htmlVersion := extractHTMLVersion htmlContent
        pageTitle := none
        headingCounts := []
        internalLinks := []
        externalLinks := []
        hasLoginForm := false
        parseErrors := [] }
      (toLowerStr b.host) baseURL)

mutual

/-- Number of element nodes of a subtree whose lowercased tag equals the
given tag. -/
def countTagNode (k : List Char) : HTMLNode → Nat
  | .mk t d _ cs =>
    (if t = .element ∧ toLowerStr d = k then 1 else 0) + countTagList k cs

/-- Tag count over a child list. -/
def countTagList (k : List Char) : List HTMLNode → Nat
  | [] => 0
  | c :: cs => countTagNode k c + countTagList k cs

end

/-- The link contribution of one node: the extracted link when the node
is an anchor element and extraction keeps it, nothing otherwise. -/
def anchorContrib (bd bu : List Char) (n : HTMLNode) : List LinkInfo :=
  if nodeType n = .element ∧ toLowerStr (nodeData n) = "a".toList then
    match extractLinkInfo n bd bu with
    | none => []
    | some li => [li]
  else []

mutual

/-- The links the traversal encounters, in document order, with their
internal/external flags. -/
def linksInDocOrderNode (bd bu : List Char) : HTMLNode → List LinkInfo
  | .mk t d a cs =>
    anchorContrib bd bu (.mk t d a cs) ++ linksInDocOrderList bd bu cs

/-- Document-order links of a child list. -/
def linksInDocOrderList (bd bu : List Char) : List HTMLNode → List LinkInfo
  | [] => []
  | c :: cs => linksInDocOrderNode bd bu c ++ linksInDocOrderList bd bu cs

end

/-- The keys of the six heading levels. -/
def headingKeys : List (List Char) :=
  ["h1".toList, "h2".toList, "h3".toList, "h4".toList, "h5".toList,
   "h6".toList]

/-- The empty extraction output. -/
def emptyParsedData : ParsedData :=
  { htmlVersion := none, pageTitle := none, headingCounts := [],
    internalLinks := [], externalLinks := [], hasLoginForm := false,
    parseErrors := [] }

/-- An internal anchor used by the link-truncation examples. -/
def exampleIntAnchor : HTMLNode :=
  .mk .element "a".toList [("href".toList, "/p".toList)] []

/-- An external anchor used by the link-truncation examples. -/
def exampleExtAnchor : HTMLNode :=
  .mk .element "a".toList
    [("href".toList, "https://other.example/x".toList)] []

/-- A document whose first link in document order is external, followed
by 200 internal links. -/
def exampleDoc2 : HTMLNode :=
  .mk .element "body".toList []
    (exampleExtAnchor :: List.replicate 200 exampleIntAnchor)

/-- The extraction output of exampleDoc2. -/
def exampleData2 : ParsedData :=
  (Parse [] exampleDoc2 "https://example.com".toList).getD emptyParsedData

/-- A document with a single h1 heading and nothing else. -/
def exampleDoc6 : HTMLNode :=
  .mk .element "html".toList []
    [.mk .element "body".toList []
      [.mk .element "h1".toList [] [.mk .text "t".toList [] []]]]

/-- The extraction output of exampleDoc6. -/
def exampleData6 : ParsedData :=
  (Parse [] exampleDoc6 "https://example.com".toList).getD emptyParsedData

/-- A concrete one-target database used to exercise a dispatcher job. -/
def exampleDB4 : DBState :=
  { urls := [{ id := 1, url := "https://a.example".toList,
               status := .queued, errorMessage := none, updatedAt := 0 }],
    crawlResults := [], foundLinks := [] }

/-- A concrete job for the target of exampleDB4. -/
def exampleJob4 : CrawlJob :=
  { urlID := 1, url := "https://a.example".toList, queuedAt := 0 }

/-- A concrete all-success oracle whose crawl returns an empty page. -/
def exampleOracle4 : JobOracle :=
  { runningUpdateErr := false,
    crawlOutcome := .ok
      { htmlVersion := none, pageTitle := none, headingCounts := [],
        internalLinks := [], externalLinks := [], hasLoginForm := false,
        parseErrors := [] },
    tx := { saveResultsErr := none, saveLinksErr := none,
            statusUpdateErr := none, commitErr := none,
            errorWriteFails := false },
    failureWriteFails := false }

/-! ## Theorems -/

theorem QueueURL_isRunning (cm : CrawlManagerState) (i : Nat) (u : List Char)
    (t : Nat) : (QueueURL cm i u t).1.isRunning = cm.isRunning := by
  unfold QueueURL
  split
  · rfl
  · dsimp only
    split <;> rfl

theorem QueueURL_queueSize (cm : CrawlManagerState) (i : Nat) (u : List Char)
    (t : Nat) : (QueueURL cm i u t).1.queueSize = cm.queueSize := by
  unfold QueueURL
  split
  · rfl
  · dsimp only
    split <;> rfl

/-- Characterization of a run of enqueues on a running manager: the first
`capacity - length` calls succeed, every later call fails with the
queue-full error. -/
theorem runEnqueues_spec (reqs : List (Nat × List Char × Nat)) :
    ∀ cm : CrawlManagerState, cm.isRunning = true →
    (runEnqueues cm reqs).2 =
      List.replicate (min reqs.length (cm.queueSize - cm.queue.length)) none ++
      List.replicate (reqs.length - (cm.queueSize - cm.queue.length))
        (some (.queueFull cm.queueSize)) := by
  induction reqs with
  | nil => intro cm _; simp [runEnqueues]
  | cons hd tl ih =>
    intro cm hrun
    obtain ⟨i, u, t⟩ := hd
    by_cases hlt : cm.queue.length < cm.queueSize
    · have hq : QueueURL cm i u t =
        ({ cm with queue := cm.queue ++ [{ urlID := i, url := u, queuedAt := t }] }, none) := by
        unfold QueueURL
        simp [hrun, hlt]
      have hrec := ih { cm with queue := cm.queue ++ [{ urlID := i, url := u, queuedAt := t }] }
        (by simpa using hrun)
      simp only [runEnqueues, hq, hrec]
      simp only [List.length_append, List.length_cons, List.length_nil]
      have h1 : min (tl.length + 1) (cm.queueSize - cm.queue.length) =
          1 + min tl.length (cm.queueSize - (cm.queue.length + 1)) := by omega
      have h2 : tl.length + 1 - (cm.queueSize - cm.queue.length) =
          tl.length - (cm.queueSize - (cm.queue.length + 1)) := by omega
      rw [h1, h2]
      rw [add_comm 1 (min tl.length (cm.queueSize - (cm.queue.length + 1)))]
      rw [List.replicate_add]
      rw [← List.cons_append, ← List.replicate_succ, List.replicate_succ',
        List.append_assoc]
      simp
    · have hq : QueueURL cm i u t = (cm, some (.queueFull cm.queueSize)) := by
        unfold QueueURL
        simp [hrun, hlt]
      have hrec := ih cm hrun
      simp only [runEnqueues, hq, hrec]
      have h0 : cm.queueSize - cm.queue.length = 0 := by omega
      simp [h0, List.replicate_succ]

/-- C1: on a freshly started manager (capacity 100, empty queue), any
sequence of 101 enqueue calls with no intervening dequeues yields success
for the first 100 calls and the queue-full error for the 101st; every call
returns immediately with one of these two outcomes (the select has a
default branch, so the caller is never blocked). -/
theorem C1_queue_capacity (reqs : List (Nat × List Char × Nat))
    (h : reqs.length = 101) :
    (runEnqueues (Start NewCrawlManager) reqs).2 =
      List.replicate 100 none ++ [some (.queueFull 100)] := by
  have hs : Start NewCrawlManager =
      { isRunning := true, queue := [], queueSize := 100, closed := false } := by
    rfl
  rw [hs, runEnqueues_spec reqs _ rfl]
  simp [h]

/-- Witness for C1 at a concrete sequence of 101 submissions. -/
theorem C1_queue_capacity_witness :
    (List.replicate 101 ((0 : Nat), ([] : List Char), (0 : Nat))).length = 101 ∧
    (runEnqueues (Start NewCrawlManager)
        (List.replicate 101 ((0 : Nat), ([] : List Char), (0 : Nat)))).2 =
      List.replicate 100 none ++ [some (.queueFull 100)] :=
  ⟨by simp, C1_queue_capacity _ (by simp)⟩

theorem linkBatchesGo_nil : ∀ n : Nat, linkBatchesGo n [] = [] := by
  intro n
  cases n <;> rfl

theorem linkBatchesGo_congr : ∀ (n m : Nat) (rows : List FoundLinkRow),
    rows.length ≤ n → rows.length ≤ m →
    linkBatchesGo n rows = linkBatchesGo m rows := by
  intro n
  induction n with
  | zero =>
    intro m rows hn _
    have hr : rows = [] := List.length_eq_zero.mp (Nat.le_zero.mp hn)
    subst hr
    rw [linkBatchesGo_nil, linkBatchesGo_nil]
  | succ n ih =>
    intro m rows hn hm
    match rows, m with
    | [], m => rw [linkBatchesGo_nil, linkBatchesGo_nil]
    | r :: rest, 0 => exact absurd hm (by simp)
    | r :: rest, Nat.succ m =>
      simp only [linkBatchesGo]
      rw [ih m ((r :: rest).drop 50) (by simp at hn ⊢; omega)
        (by simp at hm ⊢; omega)]

theorem linkBatches_nil : linkBatches [] = [] := rfl

theorem linkBatches_cons (r : FoundLinkRow) (rest : List FoundLinkRow) :
    linkBatches (r :: rest) =
      (r :: rest).take 50 :: linkBatches ((r :: rest).drop 50) := by
  show linkBatchesGo (r :: rest).length (r :: rest) = _
  rw [List.length_cons, linkBatchesGo]
  unfold linkBatches
  rw [linkBatchesGo_congr rest.length ((r :: rest).drop 50).length
    ((r :: rest).drop 50) (by simp) le_rfl]

theorem linkBatches_flatten_aux : ∀ (n : Nat) (rows : List FoundLinkRow),
    rows.length ≤ n → (linkBatches rows).flatten = rows := by
  intro n
  induction n with
  | zero =>
    intro rows h
    have hr : rows = [] := List.length_eq_zero.mp (Nat.le_zero.mp h)
    subst hr
    simp [linkBatches_nil]
  | succ n ih =>
    intro rows h
    match rows with
    | [] => simp [linkBatches_nil]
    | r :: rest =>
      rw [linkBatches_cons, List.flatten_cons,
        ih ((r :: rest).drop 50) (by simp at h ⊢; omega)]
      exact List.take_append_drop 50 (r :: rest)

/-- The batch-insert loop of saveFoundLinks inserts exactly the truncated
row list: the concatenation of the batches is the row list. -/
theorem linkBatches_flatten (rows : List FoundLinkRow) :
    (linkBatches rows).flatten = rows :=
  linkBatches_flatten_aux rows.length rows le_rfl

theorem linkBatches_sizes_aux : ∀ (n : Nat) (rows : List FoundLinkRow),
    rows.length ≤ n → ∀ b ∈ linkBatches rows, b.length ≤ 50 := by
  intro n
  induction n with
  | zero =>
    intro rows h
    have hr : rows = [] := List.length_eq_zero.mp (Nat.le_zero.mp h)
    subst hr
    intro b hb
    simp [linkBatches_nil] at hb
  | succ n ih =>
    intro rows h
    match rows with
    | [] => intro b hb; simp [linkBatches_nil] at hb
    | r :: rest =>
      rw [linkBatches_cons]
      intro b hb
      rcases List.mem_cons.mp hb with hhd | htl
      · subst hhd
        simp [List.length_take]
      · exact ih ((r :: rest).drop 50) (by simp at h ⊢; omega) b htl

/-- Every batch produced by the insert loop holds at most batchSize = 50
rows. -/
theorem linkBatches_sizes (rows : List FoundLinkRow) :
    ∀ b ∈ linkBatches rows, b.length ≤ 50 :=
  linkBatches_sizes_aux rows.length rows le_rfl

theorem crawlResults_filter_ne_eq (i : Nat) (l : List CrawlResultRow) :
    ((l.filter fun r => r.urlID ≠ i).filter fun r => r.urlID == i) = [] := by
  induction l with
  | nil => rfl
  | cons a t ih =>
    by_cases h : a.urlID = i
    · simp [List.filter_cons, h, ih]
    · simp [List.filter_cons, h, ih]

theorem foundLinks_filter_ne_eq (i : Nat) (l : List FoundLinkRow) :
    ((l.filter fun r => r.urlID ≠ i).filter fun r => r.urlID == i) = [] := by
  induction l with
  | nil => rfl
  | cons a t ih =>
    by_cases h : a.urlID = i
    · simp [List.filter_cons, h, ih]
    · simp [List.filter_cons, h, ih]

theorem foundLinks_filter_eq_of_forall (i : Nat) (l : List FoundLinkRow)
    (h : ∀ a ∈ l, a.urlID = i) : (l.filter fun r => r.urlID == i) = l := by
  induction l with
  | nil => rfl
  | cons a t ih =>
    have ha := h a (List.mem_cons_self a t)
    have ht := ih fun x hx => h x (List.mem_cons_of_mem a hx)
    simp [List.filter_cons, ha, ht]

theorem foundLinkRows_urlID (urlID : Nat) (data : ParsedData) (now : Nat) :
    ∀ row ∈ foundLinkRows urlID data now, row.urlID = urlID := by
  intro row hrow
  have hmem := List.mem_of_mem_take hrow
  rcases List.mem_append.mp hmem with hin | hex
  · obtain ⟨l, _, hl⟩ := List.mem_map.mp hin
    rw [← hl]
    rfl
  · obtain ⟨l, _, hl⟩ := List.mem_map.mp hex
    rw [← hl]
    rfl

/-- An all-success transactional oracle. -/
def TxOracle.allOk (o : TxOracle) : Prop :=
  o.saveResultsErr = none ∧ o.saveLinksErr = none ∧
    o.statusUpdateErr = none ∧ o.commitErr = none

/-- On an all-success oracle, handleCrawlSuccess commits the full
transaction: replaced result row, replaced link rows, completed status. -/
theorem handleCrawlSuccess_ok (db : DBState) (job : CrawlJob)
    (data : ParsedData) (dur now : Nat) (o : TxOracle) (h : o.allOk) :
    handleCrawlSuccess db job data dur now o =
      (updateURLStatusTx
        (applySaveFoundLinks (applySaveCrawlResults db job.urlID data dur now)
          job.urlID data now)
        job.urlID .completed none now,
       [{ status := .completed, errorMessage := none }]) := by
  obtain ⟨h1, h2, h3, h4⟩ := h
  simp [handleCrawlSuccess, h1, h2, h3, h4]

/-- C5: after two successful crawls of the same target (all persistence
steps succeeding), the crawl-results table holds exactly one row for the
target, namely the one built from the second crawl, and the found-links
table holds for the target exactly the rows of the second crawl. -/
theorem C5_recrawl_replaces (db : DBState) (job : CrawlJob)
    (data1 data2 : ParsedData) (d1 d2 t1 t2 : Nat) (o1 o2 : TxOracle)
    (h1 : o1.allOk) (h2 : o2.allOk) :
    ((handleCrawlSuccess
        (handleCrawlSuccess db job data1 d1 t1 o1).1
        job data2 d2 t2 o2).1.crawlResults.filter
          fun r => r.urlID == job.urlID) =
        [mkCrawlResult job.urlID data2 d2 t2] ∧
    ((handleCrawlSuccess
        (handleCrawlSuccess db job data1 d1 t1 o1).1
        job data2 d2 t2 o2).1.foundLinks.filter
          fun r => r.urlID == job.urlID) =
        foundLinkRows job.urlID data2 t2 := by
  rw [handleCrawlSuccess_ok db job data1 d1 t1 o1 h1]
  rw [handleCrawlSuccess_ok _ job data2 d2 t2 o2 h2]
  constructor
  · simp only [updateURLStatusTx, applySaveFoundLinks, applySaveCrawlResults,
      List.filter_append]
    rw [crawlResults_filter_ne_eq, crawlResults_filter_ne_eq]
    simp [mkCrawlResult]
  · simp only [updateURLStatusTx, applySaveFoundLinks, applySaveCrawlResults,
      List.filter_append, linkBatches_flatten]
    rw [foundLinks_filter_ne_eq, foundLinks_filter_ne_eq]
    rw [foundLinks_filter_eq_of_forall job.urlID _
      (foundLinkRows_urlID job.urlID data2 t2)]
    simp

/-- Witness for C5 at concrete database, job, crawl outputs and oracles. -/
theorem C5_recrawl_replaces_witness :
    ((handleCrawlSuccess
        (handleCrawlSuccess
          { urls := [{ id := 1, url := "https://a.example".toList,
                       status := .running, errorMessage := none, updatedAt := 0 }],
            crawlResults := [], foundLinks := [] }
          { urlID := 1, url := "https://a.example".toList, queuedAt := 0 }
          { htmlVersion := none, pageTitle := none, headingCounts := [],
            internalLinks := [{ url := "https://a.example/x".toList,
                                text := "x".toList, isImage := false,
                                isInternal := true }],
            externalLinks := [], hasLoginForm := false, parseErrors := [] }
          3 10 { saveResultsErr := none, saveLinksErr := none,
                 statusUpdateErr := none, commitErr := none,
                 errorWriteFails := false }).1
        { urlID := 1, url := "https://a.example".toList, queuedAt := 0 }
        { htmlVersion := none, pageTitle := none, headingCounts := [],
          internalLinks := [],
          externalLinks := [{ url := "https://b.example/y".toList,
                              text := "y".toList, isImage := false,
                              isInternal := false }],
          hasLoginForm := false, parseErrors := [] }
        4 20 { saveResultsErr := none, saveLinksErr := none,
               statusUpdateErr := none, commitErr := none,
               errorWriteFails := false }).1.crawlResults.filter
          fun r => r.urlID == 1) =
        [mkCrawlResult 1
          { htmlVersion := none, pageTitle := none, headingCounts := [],
            internalLinks := [],
            externalLinks := [{ url := "https://b.example/y".toList,
                                text := "y".toList, isImage := false,
                                isInternal := false }],
            hasLoginForm := false, parseErrors := [] } 4 20] :=
  (C5_recrawl_replaces
    { urls := [{ id := 1, url := "https://a.example".toList,
                 status := .running, errorMessage := none, updatedAt := 0 }],
      crawlResults := [], foundLinks := [] }
    { urlID := 1, url := "https://a.example".toList, queuedAt := 0 }
    { htmlVersion := none, pageTitle := none, headingCounts := [],
      internalLinks := [{ url := "https://a.example/x".toList,
                          text := "x".toList, isImage := false,
                          isInternal := true }],
      externalLinks := [], hasLoginForm := false, parseErrors := [] }
    { htmlVersion := none, pageTitle := none, headingCounts := [],
      internalLinks := [],
      externalLinks := [{ url := "https://b.example/y".toList,
                          text := "y".toList, isImage := false,
                          isInternal := false }],
      hasLoginForm := false, parseErrors := [] }
    3 4 10 20
    { saveResultsErr := none, saveLinksErr := none, statusUpdateErr := none,
      commitErr := none, errorWriteFails := false }
    { saveResultsErr := none, saveLinksErr := none, statusUpdateErr := none,
      commitErr := none, errorWriteFails := false }
    ⟨rfl, rfl, rfl, rfl⟩ ⟨rfl, rfl, rfl, rfl⟩).1

/-- Shape of the status-write trace of one job: empty, or the running
write followed by the rest. -/
theorem processSingleJob_trace_shape (db : DBState) (job : CrawlJob)
    (o : JobOracle) (dur now : Nat) :
    (processSingleJob db job o dur now).2 = [] ∨
    ∃ rest, (processSingleJob db job o dur now).2 =
      { status := .running, errorMessage := none } :: rest := by
  unfold processSingleJob
  by_cases hr : o.runningUpdateErr
  · simp [hr]
  · rcases hc : o.crawlOutcome with e | d
    · simp [hr, hc]
    · simp [hr, hc]

/-- C4: in every dispatcher execution of a job, a completed or error status
write is preceded by a running status write: a Target never observes
completed or error without having passed through running first. -/
theorem C4_status_machine (db : DBState) (job : CrawlJob) (o : JobOracle)
    (dur now : Nat) (l1 l2 : List StatusWrite) (w : StatusWrite)
    (hsplit : (processSingleJob db job o dur now).2 = l1 ++ w :: l2)
    (hw : w.status = .completed ∨ w.status = .error) :
    ∃ w0 ∈ l1, w0.status = .running := by
  rcases processSingleJob_trace_shape db job o dur now with hnil | ⟨rest, hcons⟩
  · rw [hnil] at hsplit
    rcases l1 with _ | ⟨a, t⟩ <;> simp at hsplit
  · rw [hcons] at hsplit
    rcases l1 with _ | ⟨a, t⟩
    · simp at hsplit
      have hws : w.status = .running := by rw [← hsplit.1]
      rcases hw with h | h <;> rw [hws] at h <;> exact absurd h (by simp)
    · simp at hsplit
      refine ⟨a, List.mem_cons_self a t, ?_⟩
      rw [← hsplit.1]

/-- Witness for C4 at a concrete job execution whose trace is
running-then-completed. -/
theorem C4_status_machine_witness :
    (processSingleJob exampleDB4 exampleJob4 exampleOracle4 0 0).2 =
      [{ status := .running, errorMessage := none }] ++
        { status := URLStatus.completed, errorMessage := none } :: [] ∧
    ∃ w0 ∈ [({ status := URLStatus.running, errorMessage := none } :
        StatusWrite)], StatusWrite.status w0 = .running :=
  ⟨by decide,
   C4_status_machine exampleDB4 exampleJob4 exampleOracle4 0 0
     [{ status := .running, errorMessage := none }] []
     { status := URLStatus.completed, errorMessage := none }
     (by decide) (Or.inl rfl)⟩

/-- C3 (amended): any failure in the persistence pipeline rolls the
transaction back, so the tables change either completely or not at all;
a failure of saveCrawlResults, saveFoundLinks or Commit additionally
transitions the Target to error with that failure's message, while a
failure of the in-transaction completed-status update rolls back and
leaves the database (including the Target status) unchanged. -/
theorem C3_transactional_save (db : DBState) (job : CrawlJob)
    (data : ParsedData) (dur now : Nat) (o : TxOracle)
    (hw : o.errorWriteFails = false) :
    ((((handleCrawlSuccess db job data dur now o).1.crawlResults =
          db.crawlResults ∧
        (handleCrawlSuccess db job data dur now o).1.foundLinks =
          db.foundLinks) ∨
      (o.allOk ∧
        (handleCrawlSuccess db job data dur now o).1.crawlResults =
          (db.crawlResults.filter fun r => r.urlID ≠ job.urlID) ++
            [mkCrawlResult job.urlID data dur now] ∧
        (handleCrawlSuccess db job data dur now o).1.foundLinks =
          (db.foundLinks.filter fun r => r.urlID ≠ job.urlID) ++
            foundLinkRows job.urlID data now))) ∧
    (∀ e, o.saveResultsErr = some e →
      (handleCrawlSuccess db job data dur now o).1 =
        updateURLStatusTx db job.urlID .error (some e) now) ∧
    (∀ e, o.saveResultsErr = none → o.saveLinksErr = some e →
      (handleCrawlSuccess db job data dur now o).1 =
        updateURLStatusTx db job.urlID .error (some e) now) ∧
    (∀ e, o.saveResultsErr = none → o.saveLinksErr = none →
      o.statusUpdateErr = some e →
      (handleCrawlSuccess db job data dur now o).1 = db) ∧
    (∀ e, o.saveResultsErr = none → o.saveLinksErr = none →
      o.statusUpdateErr = none → o.commitErr = some e →
      (handleCrawlSuccess db job data dur now o).1 =
        updateURLStatusTx db job.urlID .error (some e) now) := by
  refine ⟨?_, ?_, ?_, ?_, ?_⟩
  · rcases h1 : o.saveResultsErr with _ | e1
    · rcases h2 : o.saveLinksErr with _ | e2
      · rcases h3 : o.statusUpdateErr with _ | e3
        · rcases h4 : o.commitErr with _ | e4
          · right
            refine ⟨⟨h1, h2, h3, h4⟩, ?_, ?_⟩
            · simp [handleCrawlSuccess, h1, h2, h3, h4, updateURLStatusTx,
                applySaveFoundLinks, applySaveCrawlResults]
            · simp [handleCrawlSuccess, h1, h2, h3, h4, updateURLStatusTx,
                applySaveFoundLinks, applySaveCrawlResults, linkBatches_flatten]
          · left
            simp [handleCrawlSuccess, h1, h2, h3, h4, applyStatusWrite, hw,
              updateURLStatusTx]
        · left
          simp [handleCrawlSuccess, h1, h2, h3]
      · left
        simp [handleCrawlSuccess, h1, h2, applyStatusWrite, hw,
          updateURLStatusTx]
    · left
      simp [handleCrawlSuccess, h1, applyStatusWrite, hw, updateURLStatusTx]
  · intro e he
    simp [handleCrawlSuccess, he, applyStatusWrite, hw]
  · intro e h1 he
    simp [handleCrawlSuccess, h1, he, applyStatusWrite, hw]
  · intro e h1 h2 he
    simp [handleCrawlSuccess, h1, h2, he]
  · intro e h1 h2 h3 he
    simp [handleCrawlSuccess, h1, h2, h3, he, applyStatusWrite, hw]

/-- Witness for C3 at a concrete database and oracle (saveFoundLinks
fails): rollback plus error status with the failure's message. -/
theorem C3_transactional_save_witness :
    (handleCrawlSuccess
        { urls := [{ id := 1, url := "https://a.example".toList,
                     status := .running, errorMessage := none, updatedAt := 0 }],
          crawlResults := [], foundLinks := [] }
        { urlID := 1, url := "https://a.example".toList, queuedAt := 0 }
        { htmlVersion := none, pageTitle := none, headingCounts := [],
          internalLinks := [], externalLinks := [], hasLoginForm := false,
          parseErrors := [] }
        0 7
        { saveResultsErr := none,
          saveLinksErr := some "failed to create found links batch".toList,
          statusUpdateErr := none, commitErr := none,
          errorWriteFails := false }).1 =
      updateURLStatusTx
        { urls := [{ id := 1, url := "https://a.example".toList,
                     status := .running, errorMessage := none, updatedAt := 0 }],
          crawlResults := [], foundLinks := [] }
        1 .error (some "failed to create found links batch".toList) 7 :=
  (C3_transactional_save
    { urls := [{ id := 1, url := "https://a.example".toList,
                 status := .running, errorMessage := none, updatedAt := 0 }],
      crawlResults := [], foundLinks := [] }
    { urlID := 1, url := "https://a.example".toList, queuedAt := 0 }
    { htmlVersion := none, pageTitle := none, headingCounts := [],
      internalLinks := [], externalLinks := [], hasLoginForm := false,
      parseErrors := [] }
    0 7
    { saveResultsErr := none,
      saveLinksErr := some "failed to create found links batch".toList,
      statusUpdateErr := none, commitErr := none, errorWriteFails := false }
    rfl).2.2.1 "failed to create found links batch".toList rfl rfl

/-- Counterexample to C3 as stated: when the in-transaction status update
to completed fails, the code rolls back but never transitions the Target
to error — the status stays running, though the claim requires an error
transition for a failure of any persistence step. -/
theorem C3_counterexample :
    (handleCrawlSuccess
        { urls := [{ id := 1, url := "https://a.example".toList,
                     status := .running, errorMessage := none, updatedAt := 0 }],
          crawlResults := [], foundLinks := [] }
        { urlID := 1, url := "https://a.example".toList, queuedAt := 0 }
        { htmlVersion := none, pageTitle := none, headingCounts := [],
          internalLinks := [], externalLinks := [], hasLoginForm := false,
          parseErrors := [] }
        0 7
        { saveResultsErr := none, saveLinksErr := none,
          statusUpdateErr := some "failed to update status".toList,
          commitErr := none, errorWriteFails := false }).1 =
      { urls := [{ id := 1, url := "https://a.example".toList,
                   status := .running, errorMessage := none, updatedAt := 0 }],
        crawlResults := [], foundLinks := [] } ∧
    getStatus
      (handleCrawlSuccess
        { urls := [{ id := 1, url := "https://a.example".toList,
                     status := .running, errorMessage := none, updatedAt := 0 }],
          crawlResults := [], foundLinks := [] }
        { urlID := 1, url := "https://a.example".toList, queuedAt := 0 }
        { htmlVersion := none, pageTitle := none, headingCounts := [],
          internalLinks := [], externalLinks := [], hasLoginForm := false,
          parseErrors := [] }
        0 7
        { saveResultsErr := none, saveLinksErr := none,
          statusUpdateErr := some "failed to update status".toList,
          commitErr := none, errorWriteFails := false }).1 1 =
      some (.running, none) := by
  constructor
  · rfl
  · rfl

/-- C8: the fetcher reads the body through a reader capped at
MaxPageSize+1 bytes; a body over the cap (5 MiB in the default
configuration) yields the too_large error and no HTML, and a successful
read returns the whole body, which is at most MaxPageSize bytes; a job
whose fetch fails leaves the result and link tables untouched and
transitions the Target running-then-error. -/
theorem C8_size_cap (c : CrawlerConfig) (body : List Nat) (url : List Char)
    (db : DBState) (job : CrawlJob) (o : JobOracle) (dur now : Nat) :
    (body.length > c.maxPageSize →
      readResponseBody c body url =
        .error { errType := "too_large".toList
                 message := "Response size exceeds limit of ".toList ++
                   natToChars c.maxPageSize ++ " bytes".toList
                 url := url }) ∧
    (∀ out, readResponseBody c body url = .ok out →
      out = body ∧ out.length ≤ c.maxPageSize) ∧
    DefaultCrawlerConfig.maxPageSize = 5 * 1024 * 1024 ∧
    (∀ e, o.runningUpdateErr = false → o.crawlOutcome = .error e →
      o.failureWriteFails = false →
      (processSingleJob db job o dur now).1.crawlResults = db.crawlResults ∧
      (processSingleJob db job o dur now).1.foundLinks = db.foundLinks ∧
      (processSingleJob db job o dur now).2 =
        [{ status := .running, errorMessage := none },
         { status := .error, errorMessage := some e }]) := by
  refine ⟨?_, ?_, rfl, ?_⟩
  · intro h
    have hlen : (body.take (c.maxPageSize + 1)).length = c.maxPageSize + 1 := by
      rw [List.length_take]
      omega
    simp only [readResponseBody, hlen]
    simp
  · intro out hout
    by_cases h : (body.take (c.maxPageSize + 1)).length > c.maxPageSize
    · simp only [readResponseBody, if_pos h] at hout
      exact absurd hout (by simp)
    · simp only [readResponseBody, if_neg h] at hout
      push_neg at h
      have hble : body.length ≤ c.maxPageSize := by
        rw [List.length_take] at h
        omega
      have htake : body.take (c.maxPageSize + 1) = body :=
        List.take_of_length_le (by omega)
      rw [htake] at hout
      injection hout with h2
      exact ⟨h2.symm, by rw [← h2]; exact hble⟩
  · intro e hr he hf
    refine ⟨?_, ?_, ?_⟩ <;>
      simp [processSingleJob, hr, he, handleCrawlFailure, applyStatusWrite,
        hf, updateURLStatusTx]

/-- Witness for C8: a body one byte over the default 5 MiB cap yields the
too_large error, and a fetch-failed job ends with a running-then-error
trace. -/
theorem C8_size_cap_witness :
    readResponseBody DefaultCrawlerConfig
        (List.replicate (5 * 1024 * 1024 + 1) 0) "https://big.example".toList =
      .error { errType := "too_large".toList
               message := "Response size exceeds limit of ".toList ++
                 natToChars DefaultCrawlerConfig.maxPageSize ++ " bytes".toList
               url := "https://big.example".toList } ∧
    (processSingleJob
        { urls := [{ id := 1, url := "https://big.example".toList,
                     status := .queued, errorMessage := none, updatedAt := 0 }],
          crawlResults := [], foundLinks := [] }
        { urlID := 1, url := "https://big.example".toList, queuedAt := 0 }
        { runningUpdateErr := false,
          crawlOutcome := .error "Response size exceeds limit".toList,
          tx := { saveResultsErr := none, saveLinksErr := none,
                  statusUpdateErr := none, commitErr := none,
                  errorWriteFails := false },
          failureWriteFails := false } 0 0).2 =
      [{ status := .running, errorMessage := none },
       { status := .error,
         errorMessage := some "Response size exceeds limit".toList }] := by
  constructor
  · exact (C8_size_cap DefaultCrawlerConfig
      (List.replicate (5 * 1024 * 1024 + 1) 0) "https://big.example".toList
      { urls := [], crawlResults := [], foundLinks := [] }
      { urlID := 1, url := [], queuedAt := 0 }
      { runningUpdateErr := false, crawlOutcome := .error [],
        tx := { saveResultsErr := none, saveLinksErr := none,
                statusUpdateErr := none, commitErr := none,
                errorWriteFails := false },
        failureWriteFails := false } 0 0).1
      (by rw [List.length_replicate]; norm_num [DefaultCrawlerConfig])
  · exact ((C8_size_cap DefaultCrawlerConfig [] []
      { urls := [{ id := 1, url := "https://big.example".toList,
                   status := .queued, errorMessage := none, updatedAt := 0 }],
        crawlResults := [], foundLinks := [] }
      { urlID := 1, url := "https://big.example".toList, queuedAt := 0 }
      { runningUpdateErr := false,
        crawlOutcome := .error "Response size exceeds limit".toList,
        tx := { saveResultsErr := none, saveLinksErr := none,
                statusUpdateErr := none, commitErr := none,
                errorWriteFails := false },
        failureWriteFails := false } 0 0).2.2.2
      "Response size exceeds limit".toList rfl rfl rfl).2.2

/-- C10: every QueueURL call on a manager that is not running (as a fresh
manager before Start, and any manager after Stop) fails with the
not-running error and leaves the queue unchanged, even when capacity is
free. -/
theorem C10_enqueue_not_running :
    (∀ (cm : CrawlManagerState) (i : Nat) (u : List Char) (t : Nat),
      cm.isRunning = false → QueueURL cm i u t = (cm, some .notRunning)) ∧
    NewCrawlManager.isRunning = false ∧
    (∀ cm : CrawlManagerState, (Stop cm).isRunning = false) := by
  refine ⟨?_, rfl, ?_⟩
  · intro cm i u t h
    unfold QueueURL
    simp [h]
  · intro cm
    unfold Stop
    split
    · next h => simpa using h
    · rfl

theorem splitFirst_cons_eq (c : Char) (rest : List Char) :
    splitFirst c (c :: rest) = ([], some rest) := by
  simp [splitFirst]

theorem splitFirst_no_sep (c : Char) :
    ∀ l : List Char, (∀ x ∈ l, x ≠ c) → splitFirst c l = (l, none) := by
  intro l
  induction l with
  | nil => intro _; rfl
  | cons a t ih =>
    intro h
    have ha : a ≠ c := h a (List.mem_cons_self a t)
    simp [splitFirst, ha, ih fun x hx => h x (List.mem_cons_of_mem a hx)]

theorem splitFirst_append_no_sep (c : Char) (a : List Char) :
    ∀ b : List Char, (∀ x ∈ a, x ≠ c) →
    splitFirst c (a ++ b) = (a ++ (splitFirst c b).1, (splitFirst c b).2) := by
  induction a with
  | nil => intro b _; simp
  | cons x t ih =>
    intro b h
    have hx : x ≠ c := h x (List.mem_cons_self x t)
    simp [splitFirst, hx, ih b fun y hy => h y (List.mem_cons_of_mem x hy)]

/-- Splitting at a marker character: the part left of the marker is
recovered whole when it is free of the marker and the tail is empty or
starts with the marker. -/
theorem splitFirst_marker (c : Char) (a b : List Char)
    (ha : ∀ x ∈ a, x ≠ c) (hb : b = [] ∨ ∃ t, b = c :: t) :
    splitFirst c (a ++ b) = (a, (splitFirst c b).2) := by
  rcases hb with rfl | ⟨t, rfl⟩
  · rw [List.append_nil, splitFirst_no_sep c a ha]
    rfl
  · rw [splitFirst_append_no_sep c a _ ha, splitFirst_cons_eq]
    simp

theorem getScheme_http_append (s rest : List Char)
    (hs : s = "http".toList ∨ s = "https".toList) :
    getScheme (s ++ ':' :: rest) = .ok (s, rest) := by
  rcases hs with rfl | rfl <;> rfl

theorem spanAuthority_split (host : List Char) :
    ∀ rest : List Char, (∀ x ∈ host, x ≠ '/') →
    (rest = [] ∨ ∃ t, rest = '/' :: t) →
    spanAuthority (host ++ rest) = (host, rest) := by
  induction host with
  | nil =>
    intro rest _ hrest
    rcases hrest with rfl | ⟨t, rfl⟩
    · rfl
    · simp [spanAuthority]
  | cons x h ih =>
    intro rest hh hrest
    have hx : x ≠ '/' := hh x (List.mem_cons_self x h)
    simp [spanAuthority, hx,
      ih rest (fun y hy => hh y (List.mem_cons_of_mem x hy)) hrest]

theorem cleanHost_props (h : List Char) (hh : cleanHost h = true) :
    (∀ x ∈ h, x ≠ '/') ∧ (∀ x ∈ h, x ≠ '?') ∧ (∀ x ∈ h, x ≠ '#') ∧
    h.any (· == '@') = false ∧ h.any isCtlChar = false := by
  rw [cleanHost, List.all_eq_true] at hh
  refine ⟨?_, ?_, ?_, ?_, ?_⟩
  · intro x hx
    have := hh x hx
    simp [cleanHostChar] at this
    tauto
  · intro x hx
    have := hh x hx
    simp [cleanHostChar] at this
    tauto
  · intro x hx
    have := hh x hx
    simp [cleanHostChar] at this
    tauto
  · rw [List.any_eq_false]
    intro x hx
    have := hh x hx
    simp [cleanHostChar] at this
    simp
    tauto
  · rw [List.any_eq_false]
    intro x hx
    have := hh x hx
    simp [cleanHostChar] at this
    simp
    tauto

theorem cleanPath_props (p : List Char) (hp : cleanPath p = true) :
    (∀ x ∈ p, x ≠ '?') ∧ (∀ x ∈ p, x ≠ '#') ∧ p.any isCtlChar = false := by
  rw [cleanPath, List.all_eq_true] at hp
  refine ⟨?_, ?_, ?_⟩
  · intro x hx
    have := hp x hx
    simp [cleanPathChar] at this
    tauto
  · intro x hx
    have := hp x hx
    simp [cleanPathChar] at this
    tauto
  · rw [List.any_eq_false]
    intro x hx
    have := hp x hx
    simp [cleanPathChar] at this
    simp
    tauto

theorem cleanQuery_props (q : List Char) (hq : cleanQuery q = true) :
    (∀ x ∈ q, x ≠ '#') ∧ q.any isCtlChar = false := by
  rw [cleanQuery, List.all_eq_true] at hq
  constructor
  · intro x hx
    have := hq x hx
    simp [cleanQueryChar] at this
    tauto
  · rw [List.any_eq_false]
    intro x hx
    have := hq x hx
    simp [cleanQueryChar] at this
    simp
    tauto

theorem cleanFrag_props (f : List Char) (hf : cleanFrag f = true) :
    f.any isCtlChar = false := by
  rw [cleanFrag, List.all_eq_true] at hf
  rw [List.any_eq_false]
  intro x hx
  have := hf x hx
  simp at this
  simp [this]

/-- Parsing a rendered absolute URL: the text between the double slash
and the next slash is recovered as the host. -/
theorem parseURL_scheme_authority (s h p qp fp : List Char)
    (hs : s = "http".toList ∨ s = "https".toList)
    (hctl : hasCtl (s ++ ':' :: '/' :: '/' :: (h ++ (p ++ (qp ++ fp)))) = false)
    (hhn : ∀ x ∈ h, x ≠ '/') (hhq : ∀ x ∈ h, x ≠ '?')
    (hhh : ∀ x ∈ h, x ≠ '#') (hhat : h.any (· == '@') = false)
    (hpr : p = [] ∨ ∃ t, p = '/' :: t)
    (hpq : ∀ x ∈ p, x ≠ '?') (hph : ∀ x ∈ p, x ≠ '#')
    (hqs : qp = [] ∨ ∃ t, qp = '?' :: t) (hqh : ∀ x ∈ qp, x ≠ '#')
    (hfs : fp = [] ∨ ∃ t, fp = '#' :: t) :
    ∃ v, parseURL (s ++ ':' :: '/' :: '/' :: (h ++ (p ++ (qp ++ fp)))) =
      some v ∧ v.host = h := by
  have hsh : ∀ x ∈ s, x ≠ '#' := by
    rcases hs with rfl | rfl <;> decide
  have hsq : ∀ x ∈ s, x ≠ '?' := by
    rcases hs with rfl | rfl <;> decide
  have hnoHash : ∀ x ∈ s ++ ':' :: '/' :: '/' :: (h ++ (p ++ qp)), x ≠ '#' := by
    intro x hx
    simp only [List.mem_append, List.mem_cons] at hx
    rcases hx with hx | rfl | rfl | rfl | hx | hx | hx
    · exact hsh x hx
    · decide
    · decide
    · decide
    · exact hhh x hx
    · exact hph x hx
    · exact hqh x hx
  have hshape1 : s ++ ':' :: '/' :: '/' :: (h ++ (p ++ (qp ++ fp))) =
      (s ++ ':' :: '/' :: '/' :: (h ++ (p ++ qp))) ++ fp := by
    simp
  have h1 : splitFirst '#' (s ++ ':' :: '/' :: '/' :: (h ++ (p ++ (qp ++ fp)))) =
      (s ++ ':' :: '/' :: '/' :: (h ++ (p ++ qp)), (splitFirst '#' fp).2) := by
    rw [hshape1]
    exact splitFirst_marker '#' _ fp hnoHash hfs
  have hnoQ : ∀ x ∈ ('/' :: '/' :: (h ++ p) : List Char), x ≠ '?' := by
    intro x hx
    simp only [List.mem_append, List.mem_cons] at hx
    rcases hx with rfl | rfl | hx | hx
    · decide
    · decide
    · exact hhq x hx
    · exact hpq x hx
  have hshape2 : ('/' :: '/' :: (h ++ (p ++ qp)) : List Char) =
      ('/' :: '/' :: (h ++ p)) ++ qp := by
    simp
  have h2 : splitFirst '?' ('/' :: '/' :: (h ++ (p ++ qp))) =
      ('/' :: '/' :: (h ++ p), (splitFirst '?' qp).2) := by
    rw [hshape2]
    exact splitFirst_marker '?' _ qp hnoQ hqs
  have h3 : spanAuthority (h ++ p) = (h, p) :=
    spanAuthority_split h p hhn hpr
  have hg := getScheme_http_append s ('/' :: '/' :: (h ++ (p ++ qp))) hs
  refine ⟨{ scheme := toLowerStr s, host := h, path := p,
            query := (splitFirst '?' qp).2.getD [],
            fragment := (splitFirst '#' fp).2.getD [] }, ?_, rfl⟩
  have hhat2 : '@' ∉ h := by
    intro hmem
    rw [List.any_eq_false] at hhat
    exact hhat '@' hmem (by simp)
  simp only [parseURL, hctl, h1, hg, h2, h3, hhat]
  simp [startsWithChars, h3, hhat2]

/-- Parsing a rendered URL with scheme but neither host nor path: the
host parses back empty. -/
theorem parseURL_scheme_only (s qp fp : List Char)
    (hs : s = "http".toList ∨ s = "https".toList)
    (hctl : hasCtl (s ++ ':' :: (qp ++ fp)) = false)
    (hqs : qp = [] ∨ ∃ t, qp = '?' :: t) (hqh : ∀ x ∈ qp, x ≠ '#')
    (hfs : fp = [] ∨ ∃ t, fp = '#' :: t) :
    ∃ v, parseURL (s ++ ':' :: (qp ++ fp)) = some v ∧ v.host = [] := by
  have hsh : ∀ x ∈ s, x ≠ '#' := by rcases hs with rfl | rfl <;> decide
  have hnoHash : ∀ x ∈ s ++ ':' :: qp, x ≠ '#' := by
    intro x hx
    simp only [List.mem_append, List.mem_cons] at hx
    rcases hx with hx | rfl | hx
    · exact hsh x hx
    · decide
    · exact hqh x hx
  have hshape1 : s ++ ':' :: (qp ++ fp) = (s ++ ':' :: qp) ++ fp := by simp
  have h1 : splitFirst '#' (s ++ ':' :: (qp ++ fp)) =
      (s ++ ':' :: qp, (splitFirst '#' fp).2) := by
    rw [hshape1]
    exact splitFirst_marker '#' _ fp hnoHash hfs
  have hg := getScheme_http_append s qp hs
  have h2 : (splitFirst '?' qp).1 = [] := by
    rcases hqs with rfl | ⟨t, rfl⟩
    · rfl
    · simp [splitFirst_cons_eq]
  have hsne : s.isEmpty = false := by rcases hs with rfl | rfl <;> rfl
  refine ⟨{ scheme := toLowerStr s, host := [], path := [],
            query := (splitFirst '?' qp).2.getD [],
            fragment := (splitFirst '#' fp).2.getD [] }, ?_, rfl⟩
  simp only [parseURL, hctl, h1, hg, h2]
  simp [startsWithChars, hsne]

theorem startsWith_slash_shape (p : List Char)
    (h : startsWithChars p "/".toList = true) : ∃ t, p = '/' :: t := by
  match p with
  | [] => simp [startsWithChars] at h
  | c :: t =>
    simp [startsWithChars] at h
    exact ⟨t, by rw [h]⟩

/-- Render/parse round trip: parsing the rendering of a well-formed URL
record succeeds and recovers the host, the component the link classifier
compares. -/
theorem parse_render_host (u : GoURL)
    (hs : u.scheme = "http".toList ∨ u.scheme = "https".toList)
    (hh : cleanHost u.host = true) (hp : cleanPath u.path = true)
    (hroot : rootedPath u.path = true) (hq : cleanQuery u.query = true)
    (hf : cleanFrag u.fragment = true) :
    ∃ v, parseURL (urlToString u) = some v ∧ v.host = u.host := by
  obtain ⟨hh1, hh2, hh3, hh4, hh5⟩ := cleanHost_props u.host hh
  obtain ⟨hp1, hp2, hp3⟩ := cleanPath_props u.path hp
  obtain ⟨hq1, hq2⟩ := cleanQuery_props u.query hq
  have hf1 := cleanFrag_props u.fragment hf
  have hsne : u.scheme.isEmpty = false := by
    rcases hs with h | h <;> rw [h] <;> rfl
  have hsctl : u.scheme.any isCtlChar = false := by
    rcases hs with h | h <;> rw [h] <;> decide
  have hsne2 : u.scheme ≠ [] := by
    rcases hs with h | h <;> rw [h] <;> decide
  have hc1 : isCtlChar ':' = false := by decide
  have hc2 : isCtlChar '/' = false := by decide
  have hroot2 : u.path = [] ∨ ∃ t, u.path = '/' :: t := by
    rw [rootedPath] at hroot
    rcases Bool.or_eq_true_iff.mp hroot with h | h
    · exact Or.inl (List.isEmpty_iff.mp h)
    · exact Or.inr (startsWith_slash_shape u.path h)
  have hQshape : (if !u.query.isEmpty then '?' :: u.query else []) = [] ∨
      ∃ t, (if !u.query.isEmpty then '?' :: u.query else []) = '?' :: t := by
    by_cases hqe : u.query.isEmpty
    · simp [hqe]
    · simp [hqe]
  have hQnoHash : ∀ x ∈ (if !u.query.isEmpty then '?' :: u.query else []),
      x ≠ '#' := by
    intro x hx
    by_cases hqe : u.query.isEmpty
    · simp [hqe] at hx
    · simp [hqe] at hx
      rcases hx with rfl | hx
      · decide
      · exact hq1 x hx
  have hQctl : (if !u.query.isEmpty then '?' :: u.query else []).any
      isCtlChar = false := by
    by_cases hqe : u.query.isEmpty
    · simp [hqe]
    · simp only [hqe, Bool.not_false, if_pos, List.any_cons, hq2]
      simp
      decide
  have hFshape : (if !u.fragment.isEmpty then '#' :: u.fragment else []) = [] ∨
      ∃ t, (if !u.fragment.isEmpty then '#' :: u.fragment else []) = '#' :: t := by
    by_cases hfe : u.fragment.isEmpty
    · simp [hfe]
    · simp [hfe]
  have hFctl : (if !u.fragment.isEmpty then '#' :: u.fragment else []).any
      isCtlChar = false := by
    by_cases hfe : u.fragment.isEmpty
    · simp [hfe]
    · simp only [hfe, Bool.not_false, if_pos, List.any_cons, hf1]
      simp
      decide
  by_cases hhe : u.host.isEmpty
  · have hhost : u.host = [] := List.isEmpty_iff.mp hhe
    by_cases hpe : u.path.isEmpty
    · have hpath : u.path = [] := List.isEmpty_iff.mp hpe
      have hS : urlToString u = u.scheme ++ ':' ::
          ((if !u.query.isEmpty then '?' :: u.query else []) ++
            (if !u.fragment.isEmpty then '#' :: u.fragment else [])) := by
        rw [urlToString, hhost, hpath]
        simp [hsne2]
      have hctlS : hasCtl (u.scheme ++ ':' ::
          ((if !u.query.isEmpty then '?' :: u.query else []) ++
            (if !u.fragment.isEmpty then '#' :: u.fragment else []))) = false := by
        simp only [hasCtl, List.any_append, List.any_cons, List.any_nil,
          hsctl, hc1, hQctl, hFctl]
        simp
      obtain ⟨v, hv, hvh⟩ := parseURL_scheme_only u.scheme _ _ hs hctlS
        hQshape hQnoHash hFshape
      refine ⟨v, ?_, by rw [hvh, hhost]⟩
      rw [hS]
      exact hv
    · have hpshape : ∃ t, u.path = '/' :: t := by
        rcases hroot2 with hnil | h
        · exact absurd hnil (by simpa using hpe)
        · exact h
      have hS : urlToString u = u.scheme ++ ':' :: '/' :: '/' ::
          (([] : List Char) ++ (u.path ++
            ((if !u.query.isEmpty then '?' :: u.query else []) ++
              (if !u.fragment.isEmpty then '#' :: u.fragment else [])))) := by
        obtain ⟨t, hpt⟩ := hpshape
        rw [urlToString, hhost, hpt]
        simp [hsne2, startsWithChars]
      have hctlS : hasCtl (u.scheme ++ ':' :: '/' :: '/' ::
          (([] : List Char) ++ (u.path ++
            ((if !u.query.isEmpty then '?' :: u.query else []) ++
              (if !u.fragment.isEmpty then '#' :: u.fragment else []))))) =
          false := by
        simp only [hasCtl, List.any_append, List.any_cons, List.any_nil,
          hsctl, hc1, hc2, hp3, hQctl, hFctl]
        simp
      obtain ⟨v, hv, hvh⟩ := parseURL_scheme_authority u.scheme [] u.path _ _
        hs hctlS (by simp) (by simp) (by simp) (by simp) (Or.inr hpshape)
        hp1 hp2 hQshape hQnoHash hFshape
      refine ⟨v, ?_, by rw [hvh, hhost]⟩
      rw [hS]
      exact hv
  · have hins : (!u.path.isEmpty && !startsWithChars u.path "/".toList &&
        !u.host.isEmpty) = false := by
      rcases hroot2 with hnil | ⟨t, hpt⟩
      · rw [hnil]
        simp
      · rw [hpt]
        simp [startsWithChars]
    have hS : urlToString u = u.scheme ++ ':' :: '/' :: '/' ::
        (u.host ++ (u.path ++
          ((if !u.query.isEmpty then '?' :: u.query else []) ++
            (if !u.fragment.isEmpty then '#' :: u.fragment else [])))) := by
      rw [urlToString]
      rw [hins]
      simp [hsne2, hhe]
    have hctlS : hasCtl (u.scheme ++ ':' :: '/' :: '/' ::
        (u.host ++ (u.path ++
          ((if !u.query.isEmpty then '?' :: u.query else []) ++
            (if !u.fragment.isEmpty then '#' :: u.fragment else []))))) =
        false := by
      simp only [hasCtl, List.any_append, List.any_cons, List.any_nil,
        hsctl, hc1, hc2, hh5, hp3, hQctl, hFctl]
      simp
    obtain ⟨v, hv, hvh⟩ := parseURL_scheme_authority u.scheme u.host u.path _ _
      hs hctlS hh1 hh2 hh3 hh4 hroot2 hp1 hp2 hQshape hQnoHash hFshape
    refine ⟨v, ?_, hvh⟩
    rw [hS]
    exact hv

theorem mem_upToLastSlash (b : List Char) (c : Char)
    (hc : c ∈ upToLastSlash b) : c ∈ b := by
  rw [upToLastSlash, List.mem_reverse] at hc
  exact List.mem_reverse.mp ((List.dropWhile_sublist _).subset hc)

theorem splitSlashes_ne_nil : ∀ l : List Char, splitSlashes l ≠ [] := by
  intro l
  cases l with
  | nil => simp [splitSlashes]
  | cons c rest =>
    rw [splitSlashes]
    split
    · simp
    · split <;> simp

theorem splitSlashes_mem : ∀ (l : List Char) (s : List Char),
    s ∈ splitSlashes l → ∀ c ∈ s, c ∈ l := by
  intro l
  induction l with
  | nil =>
    intro s hs c hc
    simp [splitSlashes] at hs
    subst hs
    simp at hc
  | cons a t ih =>
    intro s hs c hc
    rw [splitSlashes] at hs
    by_cases ha : a = '/'
    · rw [if_pos ha] at hs
      rcases List.mem_cons.mp hs with rfl | hs
      · simp at hc
      · exact List.mem_cons_of_mem a (ih s hs c hc)
    · rw [if_neg ha] at hs
      rcases hsp : splitSlashes t with _ | ⟨s0, ss⟩
      · exact absurd hsp (splitSlashes_ne_nil t)
      · rw [hsp] at hs
        rcases List.mem_cons.mp hs with rfl | hs
        · rcases List.mem_cons.mp hc with rfl | hc
          · exact List.mem_cons_self c t
          · have hs0 : s0 ∈ splitSlashes t := by
              rw [hsp]
              exact List.mem_cons_self s0 ss
            exact List.mem_cons_of_mem a (ih s0 hs0 c hc)
        · have hsmem : s ∈ splitSlashes t := by
            rw [hsp]
            exact List.mem_cons_of_mem s0 hs
          exact List.mem_cons_of_mem a (ih s hsmem c hc)

theorem joinSlashes_mem : ∀ (ss : List (List Char)) (c : Char),
    c ∈ joinSlashes ss → c = '/' ∨ ∃ s ∈ ss, c ∈ s := by
  intro ss
  induction ss with
  | nil =>
    intro c hc
    simp [joinSlashes] at hc
  | cons s rest ih =>
    intro c hc
    cases rest with
    | nil =>
      simp only [joinSlashes] at hc
      exact Or.inr ⟨s, List.mem_cons_self s [], hc⟩
    | cons s2 ss2 =>
      simp only [joinSlashes] at hc
      rcases List.mem_append.mp hc with hc | hc
      · exact Or.inr ⟨s, List.mem_cons_self _ _, hc⟩
      · rcases List.mem_cons.mp hc with rfl | hc
        · exact Or.inl rfl
        · rcases ih c hc with h | ⟨s3, hs3, hc3⟩
          · exact Or.inl h
          · exact Or.inr ⟨s3, List.mem_cons_of_mem s hs3, hc3⟩

theorem remDotsGo_mem : ∀ (segs acc : List (List Char)) (s : List Char),
    s ∈ remDotsGo acc segs → s ∈ acc ∨ s ∈ segs := by
  intro segs
  induction segs with
  | nil =>
    intro acc s hs
    rw [remDotsGo] at hs
    exact Or.inl hs
  | cons a rest ih =>
    intro acc s hs
    rw [remDotsGo] at hs
    by_cases h1 : a = ['.']
    · rw [if_pos h1] at hs
      rcases ih acc s hs with h | h
      · exact Or.inl h
      · exact Or.inr (List.mem_cons_of_mem a h)
    · rw [if_neg h1] at hs
      by_cases h2 : a = ['.', '.']
      · rw [if_pos h2] at hs
        rcases ih acc.dropLast s hs with h | h
        · exact Or.inl ((List.dropLast_sublist acc).subset h)
        · exact Or.inr (List.mem_cons_of_mem a h)
      · rw [if_neg h2] at hs
        rcases ih (acc ++ [a]) s hs with h | h
        · rcases List.mem_append.mp h with h | h
          · exact Or.inl h
          · simp at h
            rw [h]
            exact Or.inr (List.mem_cons_self a rest)
        · exact Or.inr (List.mem_cons_of_mem a h)

theorem mergedFull_mem (base ref : List Char) (c : Char)
    (hc : c ∈ mergedFull base ref) : c ∈ base ∨ c ∈ ref := by
  rw [mergedFull] at hc
  split at hc
  · exact Or.inl hc
  · split at hc
    · rcases List.mem_append.mp hc with h | h
      · exact Or.inl (mem_upToLastSlash base c h)
      · exact Or.inr h
    · exact Or.inr hc

theorem cleanSegs_mem (full : List Char) (s : List Char)
    (hs : s ∈ cleanSegs full) (c : Char) (hc : c ∈ s) : c ∈ full := by
  rw [cleanSegs] at hs
  split at hs
  · exact (List.drop_sublist 1 full).subset (splitSlashes_mem _ s hs c hc)
  · exact splitSlashes_mem _ s hs c hc

theorem resolvePath_chars (P : Char → Bool) (hP : P '/' = true)
    (base ref : List Char) (hb : ∀ c ∈ base, P c = true)
    (hr : ∀ c ∈ ref, P c = true) :
    ∀ c ∈ resolvePath base ref, P c = true := by
  intro c hc
  rw [resolvePath] at hc
  split at hc
  · simp at hc
  · rcases List.mem_cons.mp hc with rfl | hc
    · exact hP
    · have hfull : ∀ x ∈ mergedFull base ref, P x = true := by
        intro x hx
        rcases mergedFull_mem base ref x hx with h | h
        · exact hb x h
        · exact hr x h
      rcases joinSlashes_mem _ c hc with rfl | ⟨s, hsmem, hcs⟩
      · exact hP
      · have hsegs : s ∈ cleanSegs (mergedFull base ref) := by
          split at hsmem
          · rcases List.mem_append.mp hsmem with h | h
            · rcases remDotsGo_mem _ [] s h with h0 | h0
              · simp at h0
              · exact h0
            · simp at h
              subst h
              simp at hcs
          · rcases remDotsGo_mem _ [] s hsmem with h0 | h0
            · simp at h0
            · exact h0
        exact hfull c (cleanSegs_mem _ s hsegs c hcs)

theorem rootedPath_resolvePath (base ref : List Char) :
    rootedPath (resolvePath base ref) = true := by
  rw [resolvePath]
  split
  · rfl
  · simp [rootedPath, startsWithChars]

/-- C9: resolving an href against the base URL and classifying by
case-insensitive host comparison yields internal exactly when the
resolved host equals the base host (the classifier returns the equality
of the lowercased hosts), and every relative reference — path-only,
fragment-only or query-only, that is, any href without scheme and host —
classifies as internal. -/
theorem C9_link_classification (baseURL href : List Char) (b r : GoURL)
    (hb : parseURL baseURL = some b) (hr : parseURL href = some r)
    (hbs : b.scheme = "http".toList ∨ b.scheme = "https".toList)
    (hbh : cleanHost b.host = true)
    (hbp : cleanPath b.path = true) (hbq : cleanQuery b.query = true)
    (hbf : cleanFrag b.fragment = true)
    (hrs : r.scheme = [] ∨ r.scheme = "http".toList ∨ r.scheme = "https".toList)
    (hrh : cleanHost r.host = true) (hrp : cleanPath r.path = true)
    (hrq : cleanQuery r.query = true) (hrf : cleanFrag r.fragment = true) :
    isInternalLink (resolveURL href baseURL) (toLowerStr b.host) =
      (toLowerStr (resolveReference b r).host == toLowerStr b.host) ∧
    (r.scheme = [] → r.host = [] →
      isInternalLink (resolveURL href baseURL) (toLowerStr b.host) = true) := by
  have hbpc : ∀ c ∈ b.path, cleanPathChar c = true := by
    rw [cleanPath, List.all_eq_true] at hbp
    exact hbp
  have hrpc : ∀ c ∈ r.path, cleanPathChar c = true := by
    rw [cleanPath, List.all_eq_true] at hrp
    exact hrp
  have hresS : (resolveReference b r).scheme = "http".toList ∨
      (resolveReference b r).scheme = "https".toList := by
    rw [resolveReference]
    split
    · simp only []
      by_cases h : r.scheme.isEmpty
      · simp only [h, if_pos]
        simp
        rcases hbs with h0 | h0
        · exact Or.inl h0
        · exact Or.inr h0
      · simp only [h]
        simp
        rcases hrs with h0 | h0 | h0
        · exact absurd h0 (by simpa using h)
        · exact Or.inl h0
        · exact Or.inr h0
    · split
      · simpa using hbs
      · simpa using hbs
  have hresH : cleanHost (resolveReference b r).host = true := by
    rw [resolveReference]
    split
    · simpa using hrh
    · split
      · simpa using hbh
      · simpa using hbh
  have hresP : cleanPath (resolveReference b r).path = true := by
    rw [resolveReference]
    split
    · simp only []
      rw [cleanPath, List.all_eq_true]
      exact fun c hc =>
        resolvePath_chars cleanPathChar (by decide) r.path [] hrpc
          (by simp) c hc
    · split
      · simp only []
        rw [cleanPath, List.all_eq_true]
        exact fun c hc =>
          resolvePath_chars cleanPathChar (by decide) b.path r.path hbpc
            hrpc c hc
      · simp only []
        rw [cleanPath, List.all_eq_true]
        exact fun c hc =>
          resolvePath_chars cleanPathChar (by decide) b.path r.path hbpc
            hrpc c hc
  have hresRoot : rootedPath (resolveReference b r).path = true := by
    rw [resolveReference]
    split
    · simpa using rootedPath_resolvePath r.path []
    · split
      · simpa using rootedPath_resolvePath b.path r.path
      · simpa using rootedPath_resolvePath b.path r.path
  have hresQ : cleanQuery (resolveReference b r).query = true := by
    rw [resolveReference]
    split
    · simpa using hrq
    · split
      · simpa using hbq
      · simpa using hrq
  have hresF : cleanFrag (resolveReference b r).fragment = true := by
    rw [resolveReference]
    split
    · simpa using hrf
    · split
      · simp only []
        by_cases h : r.fragment.isEmpty
        · simp [h]
          exact hbf
        · simp [h]
          exact hrf
      · simpa using hrf
  obtain ⟨v, hv, hvh⟩ := parse_render_host (resolveReference b r)
    hresS hresH hresP hresRoot hresQ hresF
  have hres : resolveURL href baseURL = urlToString (resolveReference b r) := by
    rw [resolveURL, hb, hr]
  have hmain : isInternalLink (resolveURL href baseURL) (toLowerStr b.host) =
      (toLowerStr (resolveReference b r).host == toLowerStr b.host) := by
    rw [hres, isInternalLink, hv]
    dsimp only
    rw [hvh]
  refine ⟨hmain, fun h1 h2 => ?_⟩
  have hhost : (resolveReference b r).host = b.host := by
    rw [resolveReference]
    have he1 : r.scheme.isEmpty = true := by simp [h1]
    have he2 : r.host.isEmpty = true := by simp [h2]
    split
    · next hcond =>
      rw [he1, he2] at hcond
      simp at hcond
    · split <;> rfl
  rw [hmain, hhost]
  simp


/-- Witness for C9 at a concrete base URL and relative href. -/
theorem C9_link_classification_witness :
    isInternalLink
      (resolveURL "docs/page?x=1#top".toList "https://example.com/a/b".toList)
      (toLowerStr "example.com".toList) = true :=
  (C9_link_classification "https://example.com/a/b".toList
    "docs/page?x=1#top".toList
    { scheme := "https".toList, host := "example.com".toList,
      path := "/a/b".toList, query := [], fragment := [] }
    { scheme := [], host := [], path := "docs/page".toList,
      query := "x=1".toList, fragment := "top".toList }
    (by decide) (by decide) (Or.inr rfl) (by decide) (by decide) (by decide)
    (by decide) (Or.inl rfl) (by decide) (by decide) (by decide)
    (by decide)).2 rfl rfl

/-- C7 (amended): version detection lowercases the whole document and
scans it for substrings; a doctype-html token anywhere yields HTML5, and
otherwise the substrings html 4.01 / xhtml 1.0 / xhtml 1.1 anywhere in the
document (no DOCTYPE required) select the version family, labeled
Strict / Transitional / Frameset by presence of those words anywhere; the
version is absent exactly when none of these tokens occurs. -/
theorem C7_version_detection (html : List Char) :
    (doctypeHtml5Cond (toLowerStr html) = true →
      extractHTMLVersion html = some "HTML5".toList) ∧
    (doctypeHtml5Cond (toLowerStr html) = false →
      goContains (toLowerStr html) "html 4.01".toList = true →
      ((goContains (toLowerStr html) "strict".toList = true →
          extractHTMLVersion html = some "HTML4.01 Strict".toList) ∧
        (goContains (toLowerStr html) "strict".toList = false →
          goContains (toLowerStr html) "transitional".toList = true →
          extractHTMLVersion html = some "HTML4.01 Transitional".toList) ∧
        (goContains (toLowerStr html) "strict".toList = false →
          goContains (toLowerStr html) "transitional".toList = false →
          goContains (toLowerStr html) "frameset".toList = true →
          extractHTMLVersion html = some "HTML4.01 Frameset".toList) ∧
        (goContains (toLowerStr html) "strict".toList = false →
          goContains (toLowerStr html) "transitional".toList = false →
          goContains (toLowerStr html) "frameset".toList = false →
          extractHTMLVersion html = some "HTML4.01".toList))) ∧
    (doctypeHtml5Cond (toLowerStr html) = false →
      goContains (toLowerStr html) "html 4.01".toList = false →
      goContains (toLowerStr html) "xhtml 1.0".toList = true →
      ((goContains (toLowerStr html) "strict".toList = true →
          extractHTMLVersion html = some "XHTML1.0 Strict".toList) ∧
        (goContains (toLowerStr html) "strict".toList = false →
          goContains (toLowerStr html) "transitional".toList = true →
          extractHTMLVersion html = some "XHTML1.0 Transitional".toList) ∧
        (goContains (toLowerStr html) "strict".toList = false →
          goContains (toLowerStr html) "transitional".toList = false →
          goContains (toLowerStr html) "frameset".toList = true →
          extractHTMLVersion html = some "XHTML1.0 Frameset".toList) ∧
        (goContains (toLowerStr html) "strict".toList = false →
          goContains (toLowerStr html) "transitional".toList = false →
          goContains (toLowerStr html) "frameset".toList = false →
          extractHTMLVersion html = some "XHTML1.0".toList))) ∧
    (doctypeHtml5Cond (toLowerStr html) = false →
      goContains (toLowerStr html) "html 4.01".toList = false →
      goContains (toLowerStr html) "xhtml 1.0".toList = false →
      goContains (toLowerStr html) "xhtml 1.1".toList = true →
      extractHTMLVersion html = some "XHTML1.1".toList) ∧
    (doctypeHtml5Cond (toLowerStr html) = false →
      goContains (toLowerStr html) "html 4.01".toList = false →
      goContains (toLowerStr html) "xhtml 1.0".toList = false →
      goContains (toLowerStr html) "xhtml 1.1".toList = false →
      extractHTMLVersion html = none) := by
  refine ⟨?_, ?_, ?_, ?_, ?_⟩
  · intro h5
    simp [extractHTMLVersion, h5]
  · intro h5 h401
    refine ⟨?_, ?_, ?_, ?_⟩ <;> intros <;>
      simp_all [extractHTMLVersion, versionAfterDoctype]
  · intro h5 h401 hx10
    refine ⟨?_, ?_, ?_, ?_⟩ <;> intros <;>
      simp_all [extractHTMLVersion, versionAfterDoctype]
  · intro h5 h401 hx10 hx11
    simp_all [extractHTMLVersion, versionAfterDoctype]
  · intro h5 h401 hx10 hx11
    simp_all [extractHTMLVersion, versionAfterDoctype]

/-- Witness for C7: an HTML5 doctype yields HTML5, and a document with no
recognized token yields no version. -/
theorem C7_version_detection_witness :
    extractHTMLVersion "<!DOCTYPE html><p>hi</p>".toList =
      some "HTML5".toList ∧
    extractHTMLVersion "<p>plain</p>".toList = none :=
  ⟨(C7_version_detection "<!DOCTYPE html><p>hi</p>".toList).1 (by decide),
   (C7_version_detection "<p>plain</p>".toList).2.2.2.2 (by decide)
     (by decide) (by decide) (by decide)⟩

/-- Counterexample to C7 as stated: a document whose body text mentions
html 4.01 but which contains no DOCTYPE token at all is still assigned
version HTML4.01, though the claim requires the version to be absent when
no recognizable DOCTYPE token is present. -/
theorem C7_counterexample :
    extractHTMLVersion "<p>see html 4.01 guide</p>".toList =
      some "HTML4.01".toList ∧
    goContains (toLowerStr "<p>see html 4.01 guide</p>".toList)
      "<!doctype".toList = false := by
  constructor
  · decide
  · decide


theorem mapLookupD_mapIncr (m : List (List Char × Nat)) (t k : List Char) :
    mapLookupD (mapIncr m t) k =
      mapLookupD m k + (if t = k then 1 else 0) := by
  induction m with
  | nil =>
    by_cases h : t = k <;> simp [mapIncr, mapLookupD, mapLookup, h]
  | cons a rest ih =>
    obtain ⟨k2, v⟩ := a
    by_cases h2 : k2 = t
    · subst h2
      by_cases h3 : k2 = k <;>
        simp [mapIncr, mapLookupD, mapLookup, h3]
    · by_cases h4 : k2 = k
      · have ht : ¬t = k := fun hc => h2 (h4.trans hc.symm)
        have hkt : ¬k = t := fun hc => h2 (h4.trans hc)
        simp [mapIncr, mapLookupD, mapLookup, h2, h4, ht, hkt]
      · simp only [mapIncr, if_neg h2]
        simp only [mapLookupD, mapLookup, if_neg h4]
        exact ih

theorem mapContainsKey_mapIncr (m : List (List Char × Nat)) (t k : List Char) :
    mapContainsKey (mapIncr m t) k =
      (mapContainsKey m k || decide (t = k)) := by
  induction m with
  | nil =>
    by_cases h : t = k <;> simp [mapIncr, mapContainsKey, mapLookup, h]
  | cons a rest ih =>
    obtain ⟨k2, v⟩ := a
    by_cases h2 : k2 = t
    · subst h2
      by_cases h3 : k2 = k <;>
        simp [mapIncr, mapContainsKey, mapLookup, h3]
    · by_cases h4 : k2 = k
      · have ht : ¬t = k := fun hc => h2 (h4.trans hc.symm)
        have hkt : ¬k = t := fun hc => h2 (h4.trans hc)
        simp [mapIncr, mapContainsKey, mapLookup, h2, h4, ht, hkt]
      · simp only [mapIncr, if_neg h2]
        simp only [mapContainsKey, mapLookup, if_neg h4]
        exact ih

theorem processNode_heading (n : HTMLNode) (data : ParsedData)
    (bd bu : List Char) (k : List Char) (hk : k ∈ headingKeys) :
    mapLookupD (processNode n data bd bu).headingCounts k =
      mapLookupD data.headingCounts k +
        (if nodeType n = .element ∧ toLowerStr (nodeData n) = k then 1
         else 0) ∧
    mapContainsKey (processNode n data bd bu).headingCounts k =
      (mapContainsKey data.headingCounts k ||
        decide (nodeType n = .element ∧ toLowerStr (nodeData n) = k)) := by
  rw [processNode]
  by_cases h1 : nodeType n = .element
  · rw [if_pos h1]
    by_cases h2 : toLowerStr (nodeData n) = "title".toList
    · rw [if_pos h2]
      have hne : ¬(nodeType n = .element ∧ toLowerStr (nodeData n) = k) := by
        intro hc
        rw [h2] at hc
        fin_cases hk <;> simp at hc
      by_cases h3 : extractTextContent n = [] <;>
        simp [h3, hne]
    · rw [if_neg h2]
      by_cases h4 : toLowerStr (nodeData n) = "h1".toList ∨
          toLowerStr (nodeData n) = "h2".toList ∨
          toLowerStr (nodeData n) = "h3".toList ∨
          toLowerStr (nodeData n) = "h4".toList ∨
          toLowerStr (nodeData n) = "h5".toList ∨
          toLowerStr (nodeData n) = "h6".toList
      · rw [if_pos h4]
        constructor
        · simp only []
          rw [mapLookupD_mapIncr]
          simp [h1]
        · simp only []
          rw [mapContainsKey_mapIncr]
          simp [h1]
      · rw [if_neg h4]
        have hne : ¬(nodeType n = .element ∧ toLowerStr (nodeData n) = k) := by
          intro hc
          apply h4
          fin_cases hk
          · exact Or.inl hc.2
          · exact Or.inr (Or.inl hc.2)
          · exact Or.inr (Or.inr (Or.inl hc.2))
          · exact Or.inr (Or.inr (Or.inr (Or.inl hc.2)))
          · exact Or.inr (Or.inr (Or.inr (Or.inr (Or.inl hc.2))))
          · exact Or.inr (Or.inr (Or.inr (Or.inr (Or.inr hc.2))))
        by_cases h5 : toLowerStr (nodeData n) = "a".toList
        · rw [if_pos h5]
          rcases hli : extractLinkInfo n bd bu with _ | li
          · simp [hne]
          · by_cases h6 : li.isInternal <;> simp [h6, hne]
        · rw [if_neg h5]
          by_cases h7 : toLowerStr (nodeData n) = "form".toList
          · rw [if_pos h7]
            by_cases h8 : hasPasswordInput n <;> simp [h8, hne]
          · rw [if_neg h7]
            simp [hne]
  · rw [if_neg h1]
    have hne : ¬(nodeType n = .element ∧ toLowerStr (nodeData n) = k) :=
      fun hc => h1 hc.1
    simp [hne]

theorem processNode_links (n : HTMLNode) (data : ParsedData)
    (bd bu : List Char) :
    (processNode n data bd bu).internalLinks =
      data.internalLinks ++
        (anchorContrib bd bu n).filter (fun l => l.isInternal) ∧
    (processNode n data bd bu).externalLinks =
      data.externalLinks ++
        (anchorContrib bd bu n).filter (fun l => !l.isInternal) := by
  rw [processNode, anchorContrib]
  by_cases h1 : nodeType n = .element
  · rw [if_pos h1]
    by_cases h2 : toLowerStr (nodeData n) = "title".toList
    · rw [if_pos h2]
      have hne : ¬(nodeType n = .element ∧
          toLowerStr (nodeData n) = "a".toList) := by
        intro hc
        rw [h2] at hc
        simp at hc
      simp only [if_neg hne]
      by_cases h3 : extractTextContent n = [] <;> simp [h3]
    · rw [if_neg h2]
      by_cases h4 : toLowerStr (nodeData n) = "h1".toList ∨
          toLowerStr (nodeData n) = "h2".toList ∨
          toLowerStr (nodeData n) = "h3".toList ∨
          toLowerStr (nodeData n) = "h4".toList ∨
          toLowerStr (nodeData n) = "h5".toList ∨
          toLowerStr (nodeData n) = "h6".toList
      · rw [if_pos h4]
        have hne : ¬(nodeType n = .element ∧
            toLowerStr (nodeData n) = "a".toList) := by
          intro hc
          rcases h4 with h | h | h | h | h | h <;> rw [hc.2] at h <;> simp at h
        simp only [if_neg hne]
        simp
      · rw [if_neg h4]
        by_cases h5 : toLowerStr (nodeData n) = "a".toList
        · rw [if_pos h5]
          have hpos : nodeType n = .element ∧
              toLowerStr (nodeData n) = "a".toList := ⟨h1, h5⟩
          rcases hli : extractLinkInfo n bd bu with _ | li
          · simp only [if_pos hpos, hli]
            simp
          · by_cases h6 : li.isInternal <;>
              simp only [if_pos hpos, hli] <;> simp [h6]
        · rw [if_neg h5]
          have hne : ¬(nodeType n = .element ∧
              toLowerStr (nodeData n) = "a".toList) := fun hc => h5 hc.2
          by_cases h7 : toLowerStr (nodeData n) = "form".toList
          · rw [if_pos h7]
            simp only [if_neg hne]
            by_cases h8 : hasPasswordInput n <;> simp [h8]
          · rw [if_neg h7]
            simp only [if_neg hne]
            simp
  · rw [if_neg h1]
    have hne : ¬(nodeType n = .element ∧
        toLowerStr (nodeData n) = "a".toList) := fun hc => h1 hc.1
    simp only [if_neg hne]
    simp

mutual

theorem traverseNode_heading (k : List Char) (hk : k ∈ headingKeys) :
    ∀ (n : HTMLNode) (st : ParsedData) (bd bu : List Char),
    mapLookupD (traverseNode n st bd bu).headingCounts k =
      mapLookupD st.headingCounts k + countTagNode k n ∧
    mapContainsKey (traverseNode n st bd bu).headingCounts k =
      (mapContainsKey st.headingCounts k || decide (0 < countTagNode k n))
  | .mk t d a cs, st, bd, bu => by
    have hp := processNode_heading (.mk t d a cs) st bd bu k hk
    have hl := traverseList_heading k hk cs
      (processNode (.mk t d a cs) st bd bu) bd bu
    rw [traverseNode, countTagNode]
    constructor
    · rw [hl.1, hp.1]
      simp only [nodeType, nodeData]
      omega
    · rw [hl.2, hp.2]
      simp only [nodeType, nodeData]
      by_cases hc : t = .element ∧ toLowerStr d = k
      · simp [hc]
      · simp [hc]

theorem traverseList_heading (k : List Char) (hk : k ∈ headingKeys) :
    ∀ (l : List HTMLNode) (st : ParsedData) (bd bu : List Char),
    mapLookupD (traverseList l st bd bu).headingCounts k =
      mapLookupD st.headingCounts k + countTagList k l ∧
    mapContainsKey (traverseList l st bd bu).headingCounts k =
      (mapContainsKey st.headingCounts k || decide (0 < countTagList k l))
  | [], st, bd, bu => by
    rw [traverseList, countTagList]
    simp
  | c :: cs, st, bd, bu => by
    have h1 := traverseNode_heading k hk c st bd bu
    have h2 := traverseList_heading k hk cs (traverseNode c st bd bu) bd bu
    rw [traverseList, countTagList]
    constructor
    · rw [h2.1, h1.1]
      omega
    · rw [h2.2, h1.2]
      by_cases hc : 0 < countTagNode k c
      · simp [hc]
      · simp [hc]

end

mutual

theorem traverseNode_links :
    ∀ (n : HTMLNode) (st : ParsedData) (bd bu : List Char),
    (traverseNode n st bd bu).internalLinks =
      st.internalLinks ++
        (linksInDocOrderNode bd bu n).filter (fun l => l.isInternal) ∧
    (traverseNode n st bd bu).externalLinks =
      st.externalLinks ++
        (linksInDocOrderNode bd bu n).filter (fun l => !l.isInternal)
  | .mk t d a cs, st, bd, bu => by
    have hp := processNode_links (.mk t d a cs) st bd bu
    have hl := traverseList_links cs
      (processNode (.mk t d a cs) st bd bu) bd bu
    rw [traverseNode, linksInDocOrderNode]
    constructor
    · rw [hl.1, hp.1, List.filter_append, List.append_assoc]
    · rw [hl.2, hp.2, List.filter_append, List.append_assoc]

theorem traverseList_links :
    ∀ (l : List HTMLNode) (st : ParsedData) (bd bu : List Char),
    (traverseList l st bd bu).internalLinks =
      st.internalLinks ++
        (linksInDocOrderList bd bu l).filter (fun li => li.isInternal) ∧
    (traverseList l st bd bu).externalLinks =
      st.externalLinks ++
        (linksInDocOrderList bd bu l).filter (fun li => !li.isInternal)
  | [], st, bd, bu => by
    rw [traverseList, linksInDocOrderList]
    simp
  | c :: cs, st, bd, bu => by
    have h1 := traverseNode_links c st bd bu
    have h2 := traverseList_links cs (traverseNode c st bd bu) bd bu
    rw [traverseList, linksInDocOrderList]
    constructor
    · rw [h2.1, h1.1, List.filter_append, List.append_assoc]
    · rw [h2.2, h1.2, List.filter_append, List.append_assoc]

end

theorem filter_partition_length (p : LinkInfo → Bool) (l : List LinkInfo) :
    (l.filter p).length + (l.filter fun x => !p x).length = l.length := by
  induction l with
  | nil => rfl
  | cons a t ih =>
    by_cases h : p a <;> simp [List.filter_cons, h] <;> omega

/-- C6 (amended): for every document tree, the extractor's heading map
read with the Go zero default gives, for each level K in 1..6, exactly
the number of hK elements in the tree; the key hK is present in the map
exactly when that count is positive — the map does not always contain
all six keys. -/
theorem C6_heading_counts (html : List Char) (doc : HTMLNode)
    (baseURL : List Char) (data : ParsedData)
    (hparse : Parse html doc baseURL = some data)
    (k : List Char) (hk : k ∈ headingKeys) :
    mapLookupD data.headingCounts k = countTagNode k doc ∧
    (mapContainsKey data.headingCounts k = true ↔ 0 < countTagNode k doc) := by
  rw [Parse] at hparse
  rcases hb : parseURL baseURL with _ | b
  · rw [hb] at hparse
    simp at hparse
  · rw [hb] at hparse
    simp only [Option.some.injEq] at hparse
    subst hparse
    have h := traverseNode_heading k hk doc
      { htmlVersion := extractHTMLVersion html, pageTitle := none,
        headingCounts := [], internalLinks := [], externalLinks := [],
        hasLoginForm := false, parseErrors := [] }
      (toLowerStr b.host) baseURL
    constructor
    · rw [h.1]
      simp [mapLookupD, mapLookup]
    · rw [h.2]
      simp [mapContainsKey, mapLookup]

/-- Witness for C6 at a concrete single-h1 document. -/
theorem C6_heading_counts_witness :
    mapLookupD exampleData6.headingCounts "h1".toList =
      countTagNode "h1".toList exampleDoc6 ∧
    countTagNode "h1".toList exampleDoc6 = 1 := by
  constructor
  · exact (C6_heading_counts [] exampleDoc6 "https://example.com".toList
      exampleData6 (by decide) "h1".toList (by decide)).1
  · decide

/-- Counterexample to C6 as stated: the heading map is created empty and
only levels that occur get a key, so a document with no h2 heading yields
a map without the h2 key, though the claim requires all six keys to be
always present. -/
theorem C6_counterexample :
    (Parse [] exampleDoc6 "https://example.com".toList).map
      (fun d => mapContainsKey d.headingCounts "h2".toList) = some false := by
  decide

/-- C2 (amended): the persisted links are the document-order internal
links followed by the document-order external links, truncated to the
first 200 of that concatenation — document order across the
internal/external split is not preserved; insertion happens in batches of
at most 50 whose concatenation is exactly the persisted list, and with
more than 200 extracted links exactly 200 rows are persisted. -/
theorem C2_link_truncation (html : List Char) (doc : HTMLNode)
    (baseURL : List Char) (b : GoURL) (data : ParsedData) (urlID now : Nat)
    (hb : parseURL baseURL = some b)
    (hparse : Parse html doc baseURL = some data)
    (hmany : 200 <
      (linksInDocOrderNode (toLowerStr b.host) baseURL doc).length) :
    data.internalLinks =
      (linksInDocOrderNode (toLowerStr b.host) baseURL doc).filter
        (fun l => l.isInternal) ∧
    data.externalLinks =
      (linksInDocOrderNode (toLowerStr b.host) baseURL doc).filter
        (fun l => !l.isInternal) ∧
    (foundLinkRows urlID data now).length = 200 ∧
    foundLinkRows urlID data now =
      ((((linksInDocOrderNode (toLowerStr b.host) baseURL doc).filter
            (fun l => l.isInternal)).map
          (fun l => mkFoundLinkRow urlID true l now)) ++
        (((linksInDocOrderNode (toLowerStr b.host) baseURL doc).filter
            (fun l => !l.isInternal)).map
          (fun l => mkFoundLinkRow urlID false l now))).take 200 ∧
    (linkBatches (foundLinkRows urlID data now)).flatten =
      foundLinkRows urlID data now ∧
    ∀ bt ∈ linkBatches (foundLinkRows urlID data now), bt.length ≤ 50 := by
  rw [Parse, hb] at hparse
  simp only [Option.some.injEq] at hparse
  have ht := traverseNode_links doc
    { htmlVersion := extractHTMLVersion html, pageTitle := none,
      headingCounts := [], internalLinks := [], externalLinks := [],
      hasLoginForm := false, parseErrors := [] }
    (toLowerStr b.host) baseURL
  have hint : data.internalLinks =
      (linksInDocOrderNode (toLowerStr b.host) baseURL doc).filter
        (fun l => l.isInternal) := by
    rw [← hparse]
    rw [ht.1]
    simp
  have hext : data.externalLinks =
      (linksInDocOrderNode (toLowerStr b.host) baseURL doc).filter
        (fun l => !l.isInternal) := by
    rw [← hparse]
    rw [ht.2]
    simp
  have hlen : (foundLinkRows urlID data now).length = 200 := by
    rw [foundLinkRows, List.length_take, List.length_append,
      List.length_map, List.length_map, hint, hext]
    have := filter_partition_length (fun l => l.isInternal)
      (linksInDocOrderNode (toLowerStr b.host) baseURL doc)
    omega
  refine ⟨hint, hext, hlen, ?_, linkBatches_flatten _, linkBatches_sizes _⟩
  rw [foundLinkRows, hint, hext]

set_option maxRecDepth 200000 in
/-- Witness for C2 at a concrete 201-link document. -/
theorem C2_link_truncation_witness :
    (foundLinkRows 1 exampleData2 0).length = 200 ∧
    (linkBatches (foundLinkRows 1 exampleData2 0)).flatten =
      foundLinkRows 1 exampleData2 0 :=
  ⟨(C2_link_truncation [] exampleDoc2 "https://example.com".toList
      { scheme := "https".toList, host := "example.com".toList, path := [],
        query := [], fragment := [] } exampleData2 1 0
      (by decide) (by decide) (by decide)).2.2.1,
   (C2_link_truncation [] exampleDoc2 "https://example.com".toList
      { scheme := "https".toList, host := "example.com".toList, path := [],
        query := [], fragment := [] } exampleData2 1 0
      (by decide) (by decide) (by decide)).2.2.2.2.1⟩

set_option maxRecDepth 200000 in
/-- Counterexample to C2 as stated: a document whose first link in
document order is external followed by 200 internal links persists the
200 internal rows (internal links are saved before external ones), not
the first 200 links in document order, so the external link that came
first in the document is dropped. -/
theorem C2_counterexample :
    Parse [] exampleDoc2 "https://example.com".toList ≠ none ∧
    (linksInDocOrderNode (toLowerStr "example.com".toList)
      "https://example.com".toList exampleDoc2).length = 201 ∧
    (foundLinkRows 1 exampleData2 0).length = 200 ∧
    foundLinkRows 1 exampleData2 0 ≠
      ((linksInDocOrderNode (toLowerStr "example.com".toList)
        "https://example.com".toList exampleDoc2).map
        (fun l => mkFoundLinkRow 1 l.isInternal l 0)).take 200 := by
  refine ⟨by decide, by decide, by decide, by decide⟩

end Crawler
